import Mathlib

/-! Charset normalisation and decoding (`internal/coding/charsets.go`).

A shallow embedding of the Go package `coding`: the `encodings` alias table, the eager decoder
`ConvertToUTF8String`, the streaming factory `NewCharsetReader`, and the HTML meta-tag scan
`FindCharsetInHTML` together with the regular expression it is built on.

Conventions of the embedding.

* A Go `string` holding text (a charset label, an HTML document) is a Lean `String`.
* A Go `[]byte`, and the Go string obtained from one by `string(output)`, is a `List UInt8`.
* A Go `(value, error)` result is a pair whose second component is `none` for a `nil` error.
* What the package imports from other libraries and cannot be read off `charsets.go` (the Unicode
  case tables behind `strings.ToLower`, the byte-level decoders of `golang.org/x/text`) is a field of
  `Lib`, over which every statement is universally quantified.
* The regular expression is run by a backtracking matcher, the discipline Go's `regexp` package
  documents for its leftmost-first matches.
-/

namespace Coding

/-! ## Data model -/

/-- Byte order argument of `unicode.UTF16`. -/
inductive Endianness
  | BigEndian
  | LittleEndian
  deriving DecidableEq, Repr

/-- Byte-order-mark policy argument of `unicode.UTF16`. -/
inductive BOMPolicy
  | IgnoreBOM
  | UseBOM
  | ExpectBOM
  deriving DecidableEq, Repr

/-- The `encoding.Encoding` values the table refers to, one constructor per Go identifier
(`encoding.Nop`, `utf7.UTF7`, `charmap.CodePage866`, ...). -/
inductive Encoding
  | Nop
  | UTF7
  | CodePage866
  | CodePage850
  | ISO8859_1
  | ISO8859_2
  | ISO8859_3
  | ISO8859_4
  | ISO8859_5
  | ISO8859_6
  | ISO8859_7
  | ISO8859_8
  | ISO8859_10
  | ISO8859_13
  | ISO8859_14
  | ISO8859_15
  | ISO8859_16
  | KOI8R
  | KOI8U
  | Macintosh
  | MacintoshCyrillic
  | Windows874
  | Windows1250
  | Windows1251
  | Windows1252
  | Windows1253
  | Windows1254
  | Windows1255
  | Windows1256
  | Windows1257
  | Windows1258
  | XUserDefined
  | GBK
  | GB18030
  | HZGB2312
  | Big5
  | EUCJP
  | ISO2022JP
  | ShiftJIS
  | EUCKR
  | Replacement
  | UTF16 (endianness : Endianness) (bomPolicy : BOMPolicy)
  deriving DecidableEq, Repr

/-- The value type of the `encodings` map: `struct { e encoding.Encoding; name string }`. -/
structure CharsetEntry where
  e : Encoding
  name : String
  deriving DecidableEq, Repr

/-- Go errors that `ConvertToUTF8String` and `NewCharsetReader` can return.
`errorf format arg` is the value of `fmt.Errorf(format, arg)`; `readError msg` is an error handed
back by `io.ReadAll` from the decoding reader. -/
inductive GoError
  | errorf (format : String) (arg : String)
  | readError (msg : String)
  deriving DecidableEq, Repr

/-- An `io.Reader`: either a reader supplied by the caller, or `transform.NewReader(src, d)`
for the decoder `d = e.NewDecoder()` of an encoding. -/
inductive Reader (ρ : Type)
  | source (r : ρ)
  | transform (src : Reader ρ) (e : Encoding)
  deriving DecidableEq, Repr

/-- The imported library behaviour the package relies on. -/
structure Lib where
  /-- The result of `strings.Map(unicode.ToLower, s)`, which `strings.ToLower` falls back to when
  `s` has a non-ASCII byte. -/
  unicodeToLower : String → String
  /-- The result `(output, err)` of
  `io.ReadAll(transform.NewReader(bytes.NewReader(b), e.NewDecoder()))` for an encoding `e` and
  bytes `b`. As in Go, `output` holds what was read before the error when `err` is not `nil`. -/
  readAllDecoded : Encoding → List UInt8 → List UInt8 × Option GoError

/-! ## The alias table -/

/-- The constant `utf8`. -/
def utf8 : String := "utf-8"

/-- The map literal `encodings`, in source order. Go rejects duplicate constant keys in a map
literal, so the association list has one pair per key. -/
def encodings : List (String × CharsetEntry) := [
  ("unicode-1-1-utf-8", CharsetEntry.mk (Encoding.Nop) utf8),
  ("utf-8", CharsetEntry.mk (Encoding.Nop) utf8),
  ("utf8", CharsetEntry.mk (Encoding.Nop) utf8),
  ("utf-7", CharsetEntry.mk (Encoding.UTF7) "utf-7"),
  ("utf7", CharsetEntry.mk (Encoding.UTF7) "utf-7"),
  ("866", CharsetEntry.mk (Encoding.CodePage866) "ibm866"),
  ("cp866", CharsetEntry.mk (Encoding.CodePage866) "ibm866"),
  ("csibm866", CharsetEntry.mk (Encoding.CodePage866) "ibm866"),
  ("ibm866", CharsetEntry.mk (Encoding.CodePage866) "ibm866"),
  ("csisolatin2", CharsetEntry.mk (Encoding.ISO8859_2) "iso-8859-2"),
  ("iso-8859-2", CharsetEntry.mk (Encoding.ISO8859_2) "iso-8859-2"),
  ("iso-ir-101", CharsetEntry.mk (Encoding.ISO8859_2) "iso-8859-2"),
  ("iso8859-2", CharsetEntry.mk (Encoding.ISO8859_2) "iso-8859-2"),
  ("iso88592", CharsetEntry.mk (Encoding.ISO8859_2) "iso-8859-2"),
  ("iso_8859-2", CharsetEntry.mk (Encoding.ISO8859_2) "iso-8859-2"),
  ("iso_8859-2:1987", CharsetEntry.mk (Encoding.ISO8859_2) "iso-8859-2"),
  ("l2", CharsetEntry.mk (Encoding.ISO8859_2) "iso-8859-2"),
  ("latin2", CharsetEntry.mk (Encoding.ISO8859_2) "iso-8859-2"),
  ("csisolatin3", CharsetEntry.mk (Encoding.ISO8859_3) "iso-8859-3"),
  ("iso-8859-3", CharsetEntry.mk (Encoding.ISO8859_3) "iso-8859-3"),
  ("iso-ir-109", CharsetEntry.mk (Encoding.ISO8859_3) "iso-8859-3"),
  ("iso8859-3", CharsetEntry.mk (Encoding.ISO8859_3) "iso-8859-3"),
  ("iso88593", CharsetEntry.mk (Encoding.ISO8859_3) "iso-8859-3"),
  ("iso_8859-3", CharsetEntry.mk (Encoding.ISO8859_3) "iso-8859-3"),
  ("iso_8859-3:1988", CharsetEntry.mk (Encoding.ISO8859_3) "iso-8859-3"),
  ("l3", CharsetEntry.mk (Encoding.ISO8859_3) "iso-8859-3"),
  ("latin3", CharsetEntry.mk (Encoding.ISO8859_3) "iso-8859-3"),
  ("csisolatin4", CharsetEntry.mk (Encoding.ISO8859_4) "iso-8859-4"),
  ("iso-8859-4", CharsetEntry.mk (Encoding.ISO8859_4) "iso-8859-4"),
  ("iso-ir-110", CharsetEntry.mk (Encoding.ISO8859_4) "iso-8859-4"),
  ("iso8859-4", CharsetEntry.mk (Encoding.ISO8859_4) "iso-8859-4"),
  ("iso88594", CharsetEntry.mk (Encoding.ISO8859_4) "iso-8859-4"),
  ("iso_8859-4", CharsetEntry.mk (Encoding.ISO8859_4) "iso-8859-4"),
  ("iso_8859-4:1988", CharsetEntry.mk (Encoding.ISO8859_4) "iso-8859-4"),
  ("l4", CharsetEntry.mk (Encoding.ISO8859_4) "iso-8859-4"),
  ("latin4", CharsetEntry.mk (Encoding.ISO8859_4) "iso-8859-4"),
  ("csisolatincyrillic", CharsetEntry.mk (Encoding.ISO8859_5) "iso-8859-5"),
  ("cyrillic", CharsetEntry.mk (Encoding.ISO8859_5) "iso-8859-5"),
  ("iso-8859-5", CharsetEntry.mk (Encoding.ISO8859_5) "iso-8859-5"),
  ("iso-ir-144", CharsetEntry.mk (Encoding.ISO8859_5) "iso-8859-5"),
  ("iso8859-5", CharsetEntry.mk (Encoding.ISO8859_5) "iso-8859-5"),
  ("iso88595", CharsetEntry.mk (Encoding.ISO8859_5) "iso-8859-5"),
  ("iso_8859-5", CharsetEntry.mk (Encoding.ISO8859_5) "iso-8859-5"),
  ("iso_8859-5:1988", CharsetEntry.mk (Encoding.ISO8859_5) "iso-8859-5"),
  ("arabic", CharsetEntry.mk (Encoding.ISO8859_6) "iso-8859-6"),
  ("asmo-708", CharsetEntry.mk (Encoding.ISO8859_6) "iso-8859-6"),
  ("csiso88596e", CharsetEntry.mk (Encoding.ISO8859_6) "iso-8859-6"),
  ("csiso88596i", CharsetEntry.mk (Encoding.ISO8859_6) "iso-8859-6"),
  ("csisolatinarabic", CharsetEntry.mk (Encoding.ISO8859_6) "iso-8859-6"),
  ("ecma-114", CharsetEntry.mk (Encoding.ISO8859_6) "iso-8859-6"),
  ("iso-8859-6", CharsetEntry.mk (Encoding.ISO8859_6) "iso-8859-6"),
  ("iso-8859-6-e", CharsetEntry.mk (Encoding.ISO8859_6) "iso-8859-6"),
  ("iso-8859-6-i", CharsetEntry.mk (Encoding.ISO8859_6) "iso-8859-6"),
  ("iso-ir-127", CharsetEntry.mk (Encoding.ISO8859_6) "iso-8859-6"),
  ("iso8859-6", CharsetEntry.mk (Encoding.ISO8859_6) "iso-8859-6"),
  ("iso88596", CharsetEntry.mk (Encoding.ISO8859_6) "iso-8859-6"),
  ("iso_8859-6", CharsetEntry.mk (Encoding.ISO8859_6) "iso-8859-6"),
  ("iso_8859-6:1987", CharsetEntry.mk (Encoding.ISO8859_6) "iso-8859-6"),
  ("csisolatingreek", CharsetEntry.mk (Encoding.ISO8859_7) "iso-8859-7"),
  ("ecma-118", CharsetEntry.mk (Encoding.ISO8859_7) "iso-8859-7"),
  ("elot_928", CharsetEntry.mk (Encoding.ISO8859_7) "iso-8859-7"),
  ("greek", CharsetEntry.mk (Encoding.ISO8859_7) "iso-8859-7"),
  ("greek8", CharsetEntry.mk (Encoding.ISO8859_7) "iso-8859-7"),
  ("iso-8859-7", CharsetEntry.mk (Encoding.ISO8859_7) "iso-8859-7"),
  ("iso-ir-126", CharsetEntry.mk (Encoding.ISO8859_7) "iso-8859-7"),
  ("iso8859-7", CharsetEntry.mk (Encoding.ISO8859_7) "iso-8859-7"),
  ("iso88597", CharsetEntry.mk (Encoding.ISO8859_7) "iso-8859-7"),
  ("iso_8859-7", CharsetEntry.mk (Encoding.ISO8859_7) "iso-8859-7"),
  ("iso_8859-7:1987", CharsetEntry.mk (Encoding.ISO8859_7) "iso-8859-7"),
  ("sun_eu_greek", CharsetEntry.mk (Encoding.ISO8859_7) "iso-8859-7"),
  ("csiso88598e", CharsetEntry.mk (Encoding.ISO8859_8) "iso-8859-8"),
  ("csisolatinhebrew", CharsetEntry.mk (Encoding.ISO8859_8) "iso-8859-8"),
  ("hebrew", CharsetEntry.mk (Encoding.ISO8859_8) "iso-8859-8"),
  ("iso-8859-8", CharsetEntry.mk (Encoding.ISO8859_8) "iso-8859-8"),
  ("iso-8859-8-e", CharsetEntry.mk (Encoding.ISO8859_8) "iso-8859-8"),
  ("iso-ir-138", CharsetEntry.mk (Encoding.ISO8859_8) "iso-8859-8"),
  ("iso8859-8", CharsetEntry.mk (Encoding.ISO8859_8) "iso-8859-8"),
  ("iso88598", CharsetEntry.mk (Encoding.ISO8859_8) "iso-8859-8"),
  ("iso_8859-8", CharsetEntry.mk (Encoding.ISO8859_8) "iso-8859-8"),
  ("iso_8859-8:1988", CharsetEntry.mk (Encoding.ISO8859_8) "iso-8859-8"),
  ("visual", CharsetEntry.mk (Encoding.ISO8859_8) "iso-8859-8"),
  ("csiso88598i", CharsetEntry.mk (Encoding.ISO8859_8) "iso-8859-8-i"),
  ("iso-8859-8-i", CharsetEntry.mk (Encoding.ISO8859_8) "iso-8859-8-i"),
  ("logical", CharsetEntry.mk (Encoding.ISO8859_8) "iso-8859-8-i"),
  ("csisolatin6", CharsetEntry.mk (Encoding.ISO8859_10) "iso-8859-10"),
  ("iso-8859-10", CharsetEntry.mk (Encoding.ISO8859_10) "iso-8859-10"),
  ("iso-ir-157", CharsetEntry.mk (Encoding.ISO8859_10) "iso-8859-10"),
  ("iso8859-10", CharsetEntry.mk (Encoding.ISO8859_10) "iso-8859-10"),
  ("iso885910", CharsetEntry.mk (Encoding.ISO8859_10) "iso-8859-10"),
  ("l6", CharsetEntry.mk (Encoding.ISO8859_10) "iso-8859-10"),
  ("latin6", CharsetEntry.mk (Encoding.ISO8859_10) "iso-8859-10"),
  ("iso-8859-13", CharsetEntry.mk (Encoding.ISO8859_13) "iso-8859-13"),
  ("iso8859-13", CharsetEntry.mk (Encoding.ISO8859_13) "iso-8859-13"),
  ("iso885913", CharsetEntry.mk (Encoding.ISO8859_13) "iso-8859-13"),
  ("iso-8859-14", CharsetEntry.mk (Encoding.ISO8859_14) "iso-8859-14"),
  ("iso8859-14", CharsetEntry.mk (Encoding.ISO8859_14) "iso-8859-14"),
  ("iso885914", CharsetEntry.mk (Encoding.ISO8859_14) "iso-8859-14"),
  ("csisolatin9", CharsetEntry.mk (Encoding.ISO8859_15) "iso-8859-15"),
  ("iso-8859-15", CharsetEntry.mk (Encoding.ISO8859_15) "iso-8859-15"),
  ("iso8859-15", CharsetEntry.mk (Encoding.ISO8859_15) "iso-8859-15"),
  ("iso885915", CharsetEntry.mk (Encoding.ISO8859_15) "iso-8859-15"),
  ("iso_8859-15", CharsetEntry.mk (Encoding.ISO8859_15) "iso-8859-15"),
  ("l9", CharsetEntry.mk (Encoding.ISO8859_15) "iso-8859-15"),
  ("iso-8859-16", CharsetEntry.mk (Encoding.ISO8859_16) "iso-8859-16"),
  ("cskoi8r", CharsetEntry.mk (Encoding.KOI8R) "koi8-r"),
  ("koi", CharsetEntry.mk (Encoding.KOI8R) "koi8-r"),
  ("koi8", CharsetEntry.mk (Encoding.KOI8R) "koi8-r"),
  ("koi8-r", CharsetEntry.mk (Encoding.KOI8R) "koi8-r"),
  ("koi8_r", CharsetEntry.mk (Encoding.KOI8R) "koi8-r"),
  ("koi8-u", CharsetEntry.mk (Encoding.KOI8U) "koi8-u"),
  ("csmacintosh", CharsetEntry.mk (Encoding.Macintosh) "macintosh"),
  ("mac", CharsetEntry.mk (Encoding.Macintosh) "macintosh"),
  ("macintosh", CharsetEntry.mk (Encoding.Macintosh) "macintosh"),
  ("x-mac-roman", CharsetEntry.mk (Encoding.Macintosh) "macintosh"),
  ("dos-874", CharsetEntry.mk (Encoding.Windows874) "windows-874"),
  ("iso-8859-11", CharsetEntry.mk (Encoding.Windows874) "windows-874"),
  ("iso8859-11", CharsetEntry.mk (Encoding.Windows874) "windows-874"),
  ("iso885911", CharsetEntry.mk (Encoding.Windows874) "windows-874"),
  ("tis-620", CharsetEntry.mk (Encoding.Windows874) "windows-874"),
  ("windows-874", CharsetEntry.mk (Encoding.Windows874) "windows-874"),
  ("cp1250", CharsetEntry.mk (Encoding.Windows1250) "windows-1250"),
  ("windows-1250", CharsetEntry.mk (Encoding.Windows1250) "windows-1250"),
  ("x-cp1250", CharsetEntry.mk (Encoding.Windows1250) "windows-1250"),
  ("cp1251", CharsetEntry.mk (Encoding.Windows1251) "windows-1251"),
  ("windows-1251", CharsetEntry.mk (Encoding.Windows1251) "windows-1251"),
  ("x-cp1251", CharsetEntry.mk (Encoding.Windows1251) "windows-1251"),
  ("ansi_x3.4-1968", CharsetEntry.mk (Encoding.Windows1252) "windows-1252"),
  ("ascii", CharsetEntry.mk (Encoding.Windows1252) "windows-1252"),
  ("cp1252", CharsetEntry.mk (Encoding.Windows1252) "windows-1252"),
  ("cp819", CharsetEntry.mk (Encoding.Windows1252) "windows-1252"),
  ("csisolatin1", CharsetEntry.mk (Encoding.Windows1252) "windows-1252"),
  ("ibm819", CharsetEntry.mk (Encoding.Windows1252) "windows-1252"),
  ("iso-8859-1", CharsetEntry.mk (Encoding.ISO8859_1) "iso-8859-1"),
  ("iso-ir-100", CharsetEntry.mk (Encoding.Windows1252) "windows-1252"),
  ("iso8859-1", CharsetEntry.mk (Encoding.ISO8859_1) "iso-8859-1"),
  ("iso8859_1", CharsetEntry.mk (Encoding.ISO8859_1) "iso-8859-1"),
  ("iso88591", CharsetEntry.mk (Encoding.ISO8859_1) "iso-8859-1"),
  ("iso_8859-1", CharsetEntry.mk (Encoding.ISO8859_1) "iso-8859-1"),
  ("iso_8859-1:1987", CharsetEntry.mk (Encoding.ISO8859_1) "iso-8859-1"),
  ("l1", CharsetEntry.mk (Encoding.Windows1252) "windows-1252"),
  ("latin1", CharsetEntry.mk (Encoding.Windows1252) "windows-1252"),
  ("us-ascii", CharsetEntry.mk (Encoding.Windows1252) "windows-1252"),
  ("windows-1252", CharsetEntry.mk (Encoding.Windows1252) "windows-1252"),
  ("x-cp1252", CharsetEntry.mk (Encoding.Windows1252) "windows-1252"),
  ("cp1253", CharsetEntry.mk (Encoding.Windows1253) "windows-1253"),
  ("windows-1253", CharsetEntry.mk (Encoding.Windows1253) "windows-1253"),
  ("x-cp1253", CharsetEntry.mk (Encoding.Windows1253) "windows-1253"),
  ("cp1254", CharsetEntry.mk (Encoding.Windows1254) "windows-1254"),
  ("csisolatin5", CharsetEntry.mk (Encoding.Windows1254) "windows-1254"),
  ("iso-8859-9", CharsetEntry.mk (Encoding.Windows1254) "windows-1254"),
  ("iso-ir-148", CharsetEntry.mk (Encoding.Windows1254) "windows-1254"),
  ("iso8859-9", CharsetEntry.mk (Encoding.Windows1254) "windows-1254"),
  ("iso88599", CharsetEntry.mk (Encoding.Windows1254) "windows-1254"),
  ("iso_8859-9", CharsetEntry.mk (Encoding.Windows1254) "windows-1254"),
  ("iso_8859-9:1989", CharsetEntry.mk (Encoding.Windows1254) "windows-1254"),
  ("l5", CharsetEntry.mk (Encoding.Windows1254) "windows-1254"),
  ("latin5", CharsetEntry.mk (Encoding.Windows1254) "windows-1254"),
  ("windows-1254", CharsetEntry.mk (Encoding.Windows1254) "windows-1254"),
  ("x-cp1254", CharsetEntry.mk (Encoding.Windows1254) "windows-1254"),
  ("cp1255", CharsetEntry.mk (Encoding.Windows1255) "windows-1255"),
  ("windows-1255", CharsetEntry.mk (Encoding.Windows1255) "windows-1255"),
  ("x-cp1255", CharsetEntry.mk (Encoding.Windows1255) "windows-1255"),
  ("cp1256", CharsetEntry.mk (Encoding.Windows1256) "windows-1256"),
  ("windows-1256", CharsetEntry.mk (Encoding.Windows1256) "windows-1256"),
  ("x-cp1256", CharsetEntry.mk (Encoding.Windows1256) "windows-1256"),
  ("cp1257", CharsetEntry.mk (Encoding.Windows1257) "windows-1257"),
  ("windows-1257", CharsetEntry.mk (Encoding.Windows1257) "windows-1257"),
  ("x-cp1257", CharsetEntry.mk (Encoding.Windows1257) "windows-1257"),
  ("cp1258", CharsetEntry.mk (Encoding.Windows1258) "windows-1258"),
  ("windows-1258", CharsetEntry.mk (Encoding.Windows1258) "windows-1258"),
  ("x-cp1258", CharsetEntry.mk (Encoding.Windows1258) "windows-1258"),
  ("x-mac-cyrillic", CharsetEntry.mk (Encoding.MacintoshCyrillic) "x-mac-cyrillic"),
  ("x-mac-ukrainian", CharsetEntry.mk (Encoding.MacintoshCyrillic) "x-mac-cyrillic"),
  ("chinese", CharsetEntry.mk (Encoding.GBK) "gbk"),
  ("csgb2312", CharsetEntry.mk (Encoding.GBK) "gbk"),
  ("csiso58gb231280", CharsetEntry.mk (Encoding.GBK) "gbk"),
  ("gb2312", CharsetEntry.mk (Encoding.GBK) "gbk"),
  ("gb_2312", CharsetEntry.mk (Encoding.GBK) "gbk"),
  ("gb_2312-80", CharsetEntry.mk (Encoding.GBK) "gbk"),
  ("gbk", CharsetEntry.mk (Encoding.GBK) "gbk"),
  ("iso-ir-58", CharsetEntry.mk (Encoding.GBK) "gbk"),
  ("x-gbk", CharsetEntry.mk (Encoding.GBK) "gbk"),
  ("gb18030", CharsetEntry.mk (Encoding.GB18030) "gb18030"),
  ("gb-18030", CharsetEntry.mk (Encoding.GB18030) "gb18030"),
  ("hz-gb-2312", CharsetEntry.mk (Encoding.HZGB2312) "hz-gb-2312"),
  ("big5", CharsetEntry.mk (Encoding.Big5) "big5"),
  ("big5-hkscs", CharsetEntry.mk (Encoding.Big5) "big5"),
  ("cn-big5", CharsetEntry.mk (Encoding.Big5) "big5"),
  ("csbig5", CharsetEntry.mk (Encoding.Big5) "big5"),
  ("x-x-big5", CharsetEntry.mk (Encoding.Big5) "big5"),
  ("cseucpkdfmtjapanese", CharsetEntry.mk (Encoding.EUCJP) "euc-jp"),
  ("euc-jp", CharsetEntry.mk (Encoding.EUCJP) "euc-jp"),
  ("x-euc-jp", CharsetEntry.mk (Encoding.EUCJP) "euc-jp"),
  ("csiso2022jp", CharsetEntry.mk (Encoding.ISO2022JP) "iso-2022-jp"),
  ("iso-2022-jp", CharsetEntry.mk (Encoding.ISO2022JP) "iso-2022-jp"),
  ("csshiftjis", CharsetEntry.mk (Encoding.ShiftJIS) "shift_jis"),
  ("ms_kanji", CharsetEntry.mk (Encoding.ShiftJIS) "shift_jis"),
  ("shift-jis", CharsetEntry.mk (Encoding.ShiftJIS) "shift_jis"),
  ("shift_jis", CharsetEntry.mk (Encoding.ShiftJIS) "shift_jis"),
  ("sjis", CharsetEntry.mk (Encoding.ShiftJIS) "shift_jis"),
  ("windows-31j", CharsetEntry.mk (Encoding.ShiftJIS) "shift_jis"),
  ("x-sjis", CharsetEntry.mk (Encoding.ShiftJIS) "shift_jis"),
  ("cseuckr", CharsetEntry.mk (Encoding.EUCKR) "euc-kr"),
  ("csksc56011987", CharsetEntry.mk (Encoding.EUCKR) "euc-kr"),
  ("euc-kr", CharsetEntry.mk (Encoding.EUCKR) "euc-kr"),
  ("iso-ir-149", CharsetEntry.mk (Encoding.EUCKR) "euc-kr"),
  ("korean", CharsetEntry.mk (Encoding.EUCKR) "euc-kr"),
  ("ks_c_5601-1987", CharsetEntry.mk (Encoding.EUCKR) "euc-kr"),
  ("ks_c_5601-1989", CharsetEntry.mk (Encoding.EUCKR) "euc-kr"),
  ("ksc5601", CharsetEntry.mk (Encoding.EUCKR) "euc-kr"),
  ("ksc_5601", CharsetEntry.mk (Encoding.EUCKR) "euc-kr"),
  ("windows-949", CharsetEntry.mk (Encoding.EUCKR) "euc-kr"),
  ("csiso2022kr", CharsetEntry.mk (Encoding.Replacement) "replacement"),
  ("iso-2022-kr", CharsetEntry.mk (Encoding.Replacement) "replacement"),
  ("iso-2022-cn", CharsetEntry.mk (Encoding.Replacement) "replacement"),
  ("iso-2022-cn-ext", CharsetEntry.mk (Encoding.Replacement) "replacement"),
  ("utf-16be", CharsetEntry.mk (Encoding.UTF16 Endianness.BigEndian BOMPolicy.IgnoreBOM) "utf-16be"),
  ("utf-16", CharsetEntry.mk (Encoding.UTF16 Endianness.LittleEndian BOMPolicy.IgnoreBOM) "utf-16le"),
  ("utf-16le", CharsetEntry.mk (Encoding.UTF16 Endianness.LittleEndian BOMPolicy.IgnoreBOM) "utf-16le"),
  ("x-user-defined", CharsetEntry.mk (Encoding.XUserDefined) "x-user-defined"),
  ("iso646-us", CharsetEntry.mk (Encoding.Windows1252) "windows-1252"),
  ("iso: western", CharsetEntry.mk (Encoding.Windows1252) "windows-1252"),
  ("we8iso8859p1", CharsetEntry.mk (Encoding.Windows1252) "windows-1252"),
  ("cp936", CharsetEntry.mk (Encoding.GBK) "gbk"),
  ("cp850", CharsetEntry.mk (Encoding.CodePage850) "cp850"),
  ("cp-850", CharsetEntry.mk (Encoding.CodePage850) "cp850"),
  ("ibm850", CharsetEntry.mk (Encoding.CodePage850) "cp850"),
  ("136", CharsetEntry.mk (Encoding.Big5) "big5"),
  ("cp932", CharsetEntry.mk (Encoding.ShiftJIS) "shift_jis"),
  ("8859-1", CharsetEntry.mk (Encoding.Windows1252) "windows-1252"),
  ("8859_1", CharsetEntry.mk (Encoding.Windows1252) "windows-1252"),
  ("8859-2", CharsetEntry.mk (Encoding.ISO8859_2) "iso-8859-2"),
  ("8859_2", CharsetEntry.mk (Encoding.ISO8859_2) "iso-8859-2"),
  ("8859-3", CharsetEntry.mk (Encoding.ISO8859_3) "iso-8859-3"),
  ("8859_3", CharsetEntry.mk (Encoding.ISO8859_3) "iso-8859-3"),
  ("8859-4", CharsetEntry.mk (Encoding.ISO8859_4) "iso-8859-4"),
  ("8859_4", CharsetEntry.mk (Encoding.ISO8859_4) "iso-8859-4"),
  ("8859-5", CharsetEntry.mk (Encoding.ISO8859_5) "iso-8859-5"),
  ("8859_5", CharsetEntry.mk (Encoding.ISO8859_5) "iso-8859-5"),
  ("8859-6", CharsetEntry.mk (Encoding.ISO8859_6) "iso-8859-6"),
  ("8859_6", CharsetEntry.mk (Encoding.ISO8859_6) "iso-8859-6"),
  ("8859-7", CharsetEntry.mk (Encoding.ISO8859_7) "iso-8859-7"),
  ("8859_7", CharsetEntry.mk (Encoding.ISO8859_7) "iso-8859-7"),
  ("8859-8", CharsetEntry.mk (Encoding.ISO8859_8) "iso-8859-8"),
  ("8859_8", CharsetEntry.mk (Encoding.ISO8859_8) "iso-8859-8"),
  ("8859-10", CharsetEntry.mk (Encoding.ISO8859_10) "iso-8859-10"),
  ("8859_10", CharsetEntry.mk (Encoding.ISO8859_10) "iso-8859-10"),
  ("8859-13", CharsetEntry.mk (Encoding.ISO8859_13) "iso-8859-13"),
  ("8859_13", CharsetEntry.mk (Encoding.ISO8859_13) "iso-8859-13"),
  ("8859-14", CharsetEntry.mk (Encoding.ISO8859_14) "iso-8859-14"),
  ("8859_14", CharsetEntry.mk (Encoding.ISO8859_14) "iso-8859-14"),
  ("8859-15", CharsetEntry.mk (Encoding.ISO8859_15) "iso-8859-15"),
  ("8859_15", CharsetEntry.mk (Encoding.ISO8859_15) "iso-8859-15"),
  ("8859-16", CharsetEntry.mk (Encoding.ISO8859_16) "iso-8859-16"),
  ("8859_16", CharsetEntry.mk (Encoding.ISO8859_16) "iso-8859-16"),
  ("utf8mb4", CharsetEntry.mk (Encoding.Nop) "utf-8"),
  ("238", CharsetEntry.mk (Encoding.Windows1250) "windows-1250")
]

/-- The map index expression `encodings[key]` in its two-valued form `csentry, ok := ...`. -/
def encodingsGet (key : String) : Option CharsetEntry :=
  encodings.lookup key

/-! ## `strings.ToLower` -/

/-- The ASCII branch of `strings.ToLower`: `c += 'a' - 'A'` for `'A' <= c && c <= 'Z'`. -/
def asciiToLower (c : Char) : Char :=
  if 'A' ≤ c ∧ c ≤ 'Z' then Char.ofNat (c.toNat + 32) else c

/-- The function `strings.ToLower`: an ASCII-only string is lowered byte by byte, any other string
goes through `strings.Map(unicode.ToLower, s)`. -/
def ToLower (L : Lib) (s : String) : String :=
  if s.data.all (fun c => c.toNat < 128) then String.mk (s.data.map asciiToLower)
  else L.unicodeToLower s

/-! ## Decoding -/

/-- The function `ConvertToUTF8String`. -/
def ConvertToUTF8String (L : Lib) (charset : String) (textBytes : List UInt8) :
    List UInt8 × Option GoError :=
  match encodingsGet (ToLower L charset) with
  | none => ([], some (.errorf "unsupported charset %q" charset))
  | some csentry =>
    match L.readAllDecoded csentry.e textBytes with
    | (_, some err) => ([], some err)
    | (output, none) => (output, none)

/-- The function `NewCharsetReader`. A `nil` reader is `none`. -/
def NewCharsetReader {ρ : Type} (L : Lib) (charset : String) (input : Reader ρ) :
    Option (Reader ρ) × Option GoError :=
  if ToLower L charset = utf8 then (some input, none)
  else
    match encodingsGet (ToLower L charset) with
    | none => (none, some (.errorf "unsupported charset %q" charset))
    | some csentry => (some (.transform input csentry.e), none)

/-! ## Regular expressions

`FindCharsetInHTML` delegates to Go's `regexp` package. The package documents its matching
discipline: a match begins as early as possible in the input, and among the matches beginning there
it is the one a backtracking search finds first. `Regexp.run` below is that backtracking search,
written as a list of successes in order of preference. -/

/-- Regular expression syntax, restricted to the operators `metaTagCharsetRegexp` is built from:
a rune class, concatenation, greedy `x*` over a rune class, greedy `x?`, and a capture group. -/
inductive Regexp
  | empty
  | rune (p : Char → Bool)
  | cat (a b : Regexp)
  | star (p : Char → Bool)
  | quest (a : Regexp)
  | capture (index : Nat) (name : String) (a : Regexp)

/-- One way of matching at a fixed start position: the text consumed, the input left over, and
the capture groups set on the way (latest first). -/
structure Submatch where
  text : List Char
  rest : List Char
  caps : List (Nat × List Char)
  deriving DecidableEq, Repr

/-- Greedy `x*` over a rune class: the longest run first, then each shorter one. -/
def starRun (p : Char → Bool) : List Char → List Submatch
  | [] => [⟨[], [], []⟩]
  | c :: s =>
    if p c then (starRun p s).map (fun m => ⟨c :: m.text, m.rest, []⟩) ++ [⟨[], c :: s, []⟩]
    else [⟨[], c :: s, []⟩]

/-- All ways of matching `re` at the head of the input, in the order a backtracking search
tries them. -/
def Regexp.run : Regexp → List Char → List Submatch
  | .empty, s => [⟨[], s, []⟩]
  | .rune _, [] => []
  | .rune p, c :: s => if p c then [⟨[c], s, []⟩] else []
  | .cat a b, s =>
    (a.run s).flatMap (fun m₁ =>
      (b.run m₁.rest).map (fun m₂ => ⟨m₁.text ++ m₂.text, m₂.rest, m₂.caps ++ m₁.caps⟩))
  | .star p, s => starRun p s
  | .quest a, s => a.run s ++ [⟨[], s, []⟩]
  | .capture index _ a, s => (a.run s).map (fun m => ⟨m.text, m.rest, (index, m.text) :: m.caps⟩)

/-- Greedy `x+` over a rune class. -/
def Regexp.plus (p : Char → Bool) : Regexp :=
  .cat (.rune p) (.star p)

/-- The names of the capture groups, in order of their opening parentheses. -/
def Regexp.groupNames : Regexp → List String
  | .cat a b => a.groupNames ++ b.groupNames
  | .quest a => a.groupNames
  | .capture _ name a => name :: a.groupNames
  | _ => []

/-- The method `SubexpNames`: element 0 names the whole match and is always empty. -/
def Regexp.SubexpNames (re : Regexp) : List String :=
  "" :: re.groupNames

/-- The method `NumSubexp`. -/
def Regexp.NumSubexp (re : Regexp) : Nat :=
  re.groupNames.length

/-- The loop of `allMatches` in `regexp`, walking the input one rune at a time. `skip` counts the
runes still covered by the previous match, `atPrevEnd` tells whether the position is the end of the
previous match (an empty match there is not delivered). -/
def Regexp.allMatches (re : Regexp) : List Char → Nat → Bool → List Submatch
  | [], 0, atPrevEnd =>
    match (re.run []).head? with
    | some m => if atPrevEnd then [] else [m]
    | none => []
  | [], _ + 1, _ => []
  | c :: s, 0, atPrevEnd =>
    match (re.run (c :: s)).head? with
    | some m =>
      if m.text.length = 0 then
        if atPrevEnd then re.allMatches s 0 false else m :: re.allMatches s 0 false
      else m :: re.allMatches s (m.text.length - 1) true
    | none => re.allMatches s 0 false
  | _ :: s, k + 1, _ => re.allMatches s k true

/-- The slice of strings delivered for one match: the whole match, then each group (empty when
the group took no part). -/
def Regexp.submatchStrings (re : Regexp) (m : Submatch) : List String :=
  String.mk m.text ::
    (List.range re.NumSubexp).map (fun i =>
      match m.caps.lookup (i + 1) with
      | some t => String.mk t
      | none => "")

/-- The method `FindAllStringSubmatch(s, -1)`. -/
def Regexp.FindAllStringSubmatch (re : Regexp) (s : String) : List (List String) :=
  (re.allMatches s.data 0 false).map re.submatchStrings

/-! ### The pattern -/

/-- The orbit of a pattern rune under `unicode.SimpleFold`, for the ASCII runes the pattern is
written in: a letter has its two cases, joined by U+017F (long s) for `s` and by U+212A (Kelvin
sign) for `k`; any other rune stands alone. -/
def simpleFoldOrbit (r : Char) : List Char :=
  if r.isAlpha then
    [r.toLower, r.toUpper] ++
      (if r.toLower = 's' then [Char.ofNat 0x17F] else []) ++
      (if r.toLower = 'k' then [Char.ofNat 0x212A] else [])
  else [r]

/-- Comparison of a pattern rune with an input rune under `(?i)`: the input rune lies on the
fold orbit of the pattern rune. -/
def foldsTo (r c : Char) : Bool :=
  (simpleFoldOrbit r).contains c

/-- A literal under `(?i)`. -/
def Regexp.literalFold (w : List Char) : Regexp :=
  w.foldr (fun r re => .cat (.rune (foldsTo r)) re) .empty

/-- The class `.` without the `s` flag: any rune but a newline. -/
def anyCharNotNL (c : Char) : Bool :=
  c != '\n'

/-- The Perl class `\s`, which is `[\t\n\f\r ]`. -/
def perlSpace (c : Char) : Bool :=
  c == '\t' || c == '\n' || c == Char.ofNat 0x0C || c == '\r' || c == ' '

/-- The class `[a-zA-Z0-9_.:-]` as written, without case folding. -/
def charsetRune (c : Char) : Bool :=
  c.isAlpha || c.isDigit || c == '_' || c == '.' || c == ':' || c == '-'

/-- The class `[a-zA-Z0-9_.:-]` under `(?i)`: folding the letter ranges adds U+017F and U+212A. -/
def charsetRuneFold (c : Char) : Bool :=
  charsetRune c || c == Char.ofNat 0x17F || c == Char.ofNat 0x212A

/-- The rune `"`. -/
def doubleQuote : Char := Char.ofNat 0x22

/-- The pattern after `<meta.*`, namely `charset="?\s*(?P<charset>[a-zA-Z0-9_.:-]+)\s*"?`. -/
def charsetAttrRegexp : Regexp :=
  .cat (Regexp.literalFold "charset=".data)
    (.cat (.quest (.rune (foldsTo doubleQuote)))
      (.cat (.star perlSpace)
        (.cat (.capture 1 "charset" (Regexp.plus charsetRuneFold))
          (.cat (.star perlSpace) (.quest (.rune (foldsTo doubleQuote)))))))

/-- The compiled pattern
`(?i)<meta.*charset="?\s*(?P<charset>[a-zA-Z0-9_.:-]+)\s*"?`. -/
def metaTagCharsetRegexp : Regexp :=
  .cat (Regexp.literalFold "<meta".data) (.cat (.star anyCharNotNL) charsetAttrRegexp)

/-- The loop of `init`: the first index whose name is `"charset"`, and the zero value of the
variable when there is none. -/
def findCharsetIndex : List String → Nat → Nat
  | [], _ => 0
  | name :: names, i => if name = "charset" then i else findCharsetIndex names (i + 1)

/-- The variable `metaTagCharsetIndex` once `init` has run. -/
def metaTagCharsetIndex : Nat :=
  findCharsetIndex metaTagCharsetRegexp.SubexpNames 0

/-- The function `FindCharsetInHTML`. -/
def FindCharsetInHTML (html : String) : String :=
  match metaTagCharsetRegexp.FindAllStringSubmatch html with
  | m :: _ => m.getD metaTagCharsetIndex ""
  | [] => ""

/-! ## Text predicates used in the statements

Occurrences are taken in any letter case, compared rune by rune the way the `(?i)` flag of the
pattern compares them (`foldsTo`). -/

/-- The text `t` begins with the word `w` in some letter case. -/
def startsWithFold : List Char → List Char → Bool
  | [], _ => true
  | _ :: _, [] => false
  | r :: w, c :: t => foldsTo r c && startsWithFold w t

/-- The word `w` occurs somewhere in the text, in some letter case. -/
def containsFold (w : List Char) : List Char → Bool
  | [] => startsWithFold w []
  | c :: t => startsWithFold w (c :: t) || containsFold w t

/-- The text `cs` is the word `w` in some letter case. -/
def sameFold (w cs : List Char) : Bool :=
  cs.length == w.length && startsWithFold w cs

/-- The rest of the current line: the text up to the first newline. -/
def lineRest (t : List Char) : List Char :=
  t.takeWhile anyCharNotNL

/-- The text following a charset value does not prolong it. -/
def valueEnds : List Char → Bool
  | [] => true
  | c :: _ => !charsetRuneFold c

/-- The text `t` begins with `<meta`, and `charset=` follows on the same line. -/
def metaWithCharset (t : List Char) : Bool :=
  startsWithFold "<meta".data t && containsFold "charset=".data (lineRest (t.drop 5))

/-- In the text `p ++ t`, no position inside `p` is a `<meta` with a `charset=` after it on its
line. -/
def noMetaWithCharset : List Char → List Char → Bool
  | [], _ => true
  | c :: p, t => !metaWithCharset (c :: p ++ t) && noMetaWithCharset p t

/-- The text `t` agrees with the word `w`, in some letter case, as far as both go. -/
def compatFold : List Char → List Char → Bool
  | [], _ => true
  | _ :: _, [] => true
  | r :: w, c :: t => foldsTo r c && compatFold w t

/-- No position of `p` starts a `<meta`, not even one cut short by the end of `p`. -/
def noMetaStart : List Char → Bool
  | [] => true
  | c :: p => !compatFold "<meta".data (c :: p) && noMetaStart p

/-! ## A library instance for evaluation -/

/-- A concrete `Lib` on which the definitions can be evaluated: labels outside ASCII are left as
they are, the decoder of `encoding.Nop` hands every byte through, and every other decoder passes
ASCII bytes through and stops with an error at the first byte that is not ASCII. -/
def sampleLib : Lib where
  unicodeToLower := fun s => s
  readAllDecoded := fun e b =>
    match e with
    | .Nop => (b, none)
    | _ =>
      (b.takeWhile (fun x => x < 128),
        if b.all (fun x => x < 128) then none else some (.readError "invalid byte"))

/-! ## Reading a reader to its end -/

/-- The errors the library hands back are its own: none of them is a value built by `fmt.Errorf`
in this package. -/
def Lib.ownErrors (L : Lib) : Prop :=
  ∀ e b err, (L.readAllDecoded e b).2 = some err → ∃ msg, err = GoError.readError msg

/-- The result `(output, err)` of `io.ReadAll(r)` for a reader built over byte slices, where
`Reader.source b` is `bytes.NewReader(b)`. A transforming reader over a source that reads to its end
without error yields what the decoder makes of those bytes. What a decoder does with a source that
fails midway is not described by `Lib`; that case has no value here. -/
def ReadAll (L : Lib) : Reader (List UInt8) → Option (List UInt8 × Option GoError)
  | .source b => some (b, none)
  | .transform src e =>
    match ReadAll L src with
    | some (b, none) => some (L.readAllDecoded e b)
    | _ => none

/-- The canonical name a label is normalised to: the `name` of the entry found under its
lowercased form. -/
def canonicalName (L : Lib) (label : String) : Option String :=
  (encodingsGet (ToLower L label)).map (fun csentry => csentry.name)

/-! ## Decode capabilities described by the spec -/

/-- Modelled from the spec: the decode capability `encoding.Replacement`, which belongs to
`golang.org/x/text/encoding` and is missing from `charsets.go`. The spec describes it as yielding
"a fixed replacement-character stream rather than true decoding": whatever the input, reading
through it gives the one rune U+FFFD, in UTF-8 the bytes `EF BF BD`, and no error. -/
def replacementReadAll (_b : List UInt8) : List UInt8 × Option GoError :=
  ([0xEF, 0xBF, 0xBD], none)

/-- The code points of the bytes `0x80` to `0x9F` in code page 1252. -/
def windows1252High : List Nat :=
  [0x20AC, 0x0081, 0x201A, 0x0192, 0x201E, 0x2026, 0x2020, 0x2021,
   0x02C6, 0x2030, 0x0160, 0x2039, 0x0152, 0x008D, 0x017D, 0x008F,
   0x0090, 0x2018, 0x2019, 0x201C, 0x201D, 0x2022, 0x2013, 0x2014,
   0x02DC, 0x2122, 0x0161, 0x203A, 0x0153, 0x009D, 0x017E, 0x0178]

/-- The rune a byte stands for in code page 1252: ASCII below `0x80`, the Latin-1 code point
from `0xA0` on, and the table above in between. -/
def windows1252Rune (x : UInt8) : Char :=
  if x.toNat < 0x80 ∨ 0xA0 ≤ x.toNat then Char.ofNat x.toNat
  else Char.ofNat (windows1252High.getD (x.toNat - 0x80) 0xFFFD)

/-- Modelled from the spec: the decode capability `charmap.Windows1252`, which belongs to
`golang.org/x/text/encoding/charmap` and is missing from `charsets.go`. It is a single-byte code
page: every byte is replaced by the UTF-8 form of its rune, without error. The spec's scenario
fixes the runes of `0x93` and `0x94` as U+201C and U+201D. -/
def windows1252ReadAll (b : List UInt8) : List UInt8 × Option GoError :=
  (b.flatMap (fun x => String.utf8EncodeChar (windows1252Rune x)), none)

/-- A library instance with the capabilities the spec describes: the no-op, the replacement and
the Windows-1252 decoders; every other decoder is the one of `sampleLib`. -/
def specLib : Lib where
  unicodeToLower := fun s => s
  readAllDecoded := fun e b =>
    match e with
    | .Nop => (b, none)
    | .Replacement => replacementReadAll b
    | .Windows1252 => windows1252ReadAll b
    | _ => sampleLib.readAllDecoded e b

/-! ## Decoders and ASCII -/

/-- Modelled from the spec: which decode capabilities of `golang.org/x/text` (missing from
`charsets.go`) hand bytes below `0x80` through as they are. The spec grants it to the no-op
transform and to "every supported single/multi-byte legacy encoding in the table". It is not
granted to the replacement capability, which yields replacement characters, nor to the Unicode
variants UTF-7 and UTF-16, where `+` opens a base64 run and two bytes make one code unit. The two
stateful 7-bit encodings HZ-GB-2312 and ISO-2022-JP are left out as well, since their escape
bytes `~` and ESC lie below `0x80`. -/
def handsASCIIThrough : Encoding → Bool
  | .UTF7 => false
  | .UTF16 _ _ => false
  | .HZGB2312 => false
  | .ISO2022JP => false
  | .Replacement => false
  | _ => true

/-- The library reads ASCII input unchanged, and without error, through every decoder that
`handsASCIIThrough` lists. -/
def Lib.preservesASCII (L : Lib) : Prop :=
  ∀ e, handsASCIIThrough e = true → ∀ b : List UInt8, b.all (fun x => x < 0x80) = true →
    L.readAllDecoded e b = (b, none)

/-- The keys of `encodings` whose decoder is not one that hands ASCII through: those of UTF-7,
ISO-2022-JP, HZ-GB-2312, the replacement decoder and UTF-16. -/
def asciiExceptionKeys : List String :=
  ["utf-7", "utf7", "csiso2022jp", "iso-2022-jp", "hz-gb-2312", "csiso2022kr", "iso-2022-kr",
   "iso-2022-cn", "iso-2022-cn-ext", "utf-16be", "utf-16", "utf-16le"]

/-! ## Theorems -/

/-! ### Table lookups -/

theorem encodingsGet_utf8 : encodingsGet utf8 = some ⟨.Nop, utf8⟩ := by decide

theorem ToLower_ascii (L : Lib) (s : String) (h : s.data.all (fun c => c.toNat < 128) = true) :
    ToLower L s = String.mk (s.data.map asciiToLower) := by
  simp only [ToLower, h, if_true]

theorem ToLower_utf8 (L : Lib) : ToLower L "utf-8" = utf8 := by
  rw [ToLower_ascii L "utf-8" (by decide)]; decide

theorem mem_of_encodingsGet {key : String} {csentry : CharsetEntry}
    (h : encodingsGet key = some csentry) : (key, csentry) ∈ encodings := by
  obtain ⟨l₁, l₂, hl, -⟩ := List.lookup_eq_some_iff.mp h
  rw [hl]
  simp

set_option maxRecDepth 1000000 in
theorem encodings_closed :
    ∀ p ∈ encodings, encodingsGet p.2.name ≠ none ∨ p.2.name = "replacement" := by
  decide!

/-! ### `ConvertToUTF8String` and `NewCharsetReader` -/

theorem Reader.transform_ne {ρ : Type} (r : Reader ρ) (e : Encoding) :
    Reader.transform r e ≠ r := by
  intro h
  have := congrArg sizeOf h
  simp only [Reader.transform.sizeOf_spec] at this
  omega

/-- C1: a label whose lowercased form is not a key makes `ConvertToUTF8String` return the empty
string and the error `fmt.Errorf("unsupported charset %q", charset)` built from the label as it was
passed in, whatever the bytes; the error is never one coming from the decoding reader. -/
theorem ConvertToUTF8String_unsupported (L : Lib) (charset : String) (textBytes : List UInt8)
    (h : encodingsGet (ToLower L charset) = none) :
    ConvertToUTF8String L charset textBytes
        = ([], some (.errorf "unsupported charset %q" charset)) ∧
      ∀ msg, (ConvertToUTF8String L charset textBytes).2 ≠ some (.readError msg) := by
  have e : ConvertToUTF8String L charset textBytes
      = ([], some (.errorf "unsupported charset %q" charset)) := by
    simp [ConvertToUTF8String, h]
  refine ⟨e, ?_⟩
  intro msg
  rw [e]
  simp

theorem ConvertToUTF8String_unsupported_witness :
    encodingsGet (ToLower sampleLib "Nonexistent-Charset-XYZ") = none ∧
      ConvertToUTF8String sampleLib "Nonexistent-Charset-XYZ" [0x93, 0x41, 0x94]
        = ([], some (.errorf "unsupported charset %q" "Nonexistent-Charset-XYZ")) :=
  ⟨by decide,
    (ConvertToUTF8String_unsupported sampleLib "Nonexistent-Charset-XYZ" [0x93, 0x41, 0x94]
      (by decide)).1⟩

/-- C2: `NewCharsetReader` returns an error exactly when the lowercased label is not a key of
`encodings`; in that case the reader is `nil` and the error is the one `ConvertToUTF8String`
returns for the same label, `fmt.Errorf("unsupported charset %q", charset)`. -/
theorem NewCharsetReader_error_iff {ρ : Type} (L : Lib) (charset : String) (input : Reader ρ) :
    ((NewCharsetReader L charset input).2 ≠ none ↔ encodingsGet (ToLower L charset) = none) ∧
      (encodingsGet (ToLower L charset) = none →
        NewCharsetReader L charset input
            = (none, some (.errorf "unsupported charset %q" charset)) ∧
          ∀ textBytes, (ConvertToUTF8String L charset textBytes).2
            = (NewCharsetReader L charset input).2) := by
  by_cases hu : ToLower L charset = utf8
  · simp [NewCharsetReader, hu, encodingsGet_utf8]
  · cases hk : encodingsGet (ToLower L charset) with
    | none => simp [NewCharsetReader, ConvertToUTF8String, hu, hk]
    | some csentry => simp [NewCharsetReader, hu, hk]

theorem NewCharsetReader_error_iff_witness :
    encodingsGet (ToLower sampleLib "X-Unknown") = none ∧
      NewCharsetReader sampleLib "X-Unknown" (Reader.source [0x41])
        = (none, some (.errorf "unsupported charset %q" "X-Unknown")) ∧
      ∀ textBytes, (ConvertToUTF8String sampleLib "X-Unknown" textBytes).2
        = (NewCharsetReader sampleLib "X-Unknown" (Reader.source [0x41])).2 :=
  ⟨by decide,
    (NewCharsetReader_error_iff sampleLib "X-Unknown" (Reader.source [0x41])).2 (by decide)⟩

/-- C3: lookup is case-insensitive. Two labels with the same lowercased form either are both
unsupported, for `ConvertToUTF8String` and for `NewCharsetReader`, or resolve to one and the same
table entry, and then both functions return equal results on equal arguments. In particular
`"UTF-8"`, `"utf-8"` and `"Utf8"` resolve to the entry with name `utf-8` and decoder
`encoding.Nop`. -/
theorem lookup_case_insensitive {ρ : Type} (L : Lib) (c₁ c₂ : String) (textBytes : List UInt8)
    (input : Reader ρ) (h : ToLower L c₁ = ToLower L c₂) :
    ((encodingsGet (ToLower L c₁) = none ∧ encodingsGet (ToLower L c₂) = none ∧
        ConvertToUTF8String L c₁ textBytes
          = ([], some (.errorf "unsupported charset %q" c₁)) ∧
        ConvertToUTF8String L c₂ textBytes
          = ([], some (.errorf "unsupported charset %q" c₂)) ∧
        NewCharsetReader L c₁ input = (none, some (.errorf "unsupported charset %q" c₁)) ∧
        NewCharsetReader L c₂ input = (none, some (.errorf "unsupported charset %q" c₂))) ∨
      (∃ csentry, encodingsGet (ToLower L c₁) = some csentry ∧
        encodingsGet (ToLower L c₂) = some csentry ∧
        ConvertToUTF8String L c₁ textBytes = ConvertToUTF8String L c₂ textBytes ∧
        NewCharsetReader L c₁ input = NewCharsetReader L c₂ input ∧
        (NewCharsetReader L c₁ input).2 = none)) ∧
    encodingsGet (ToLower L "UTF-8") = some ⟨.Nop, "utf-8"⟩ ∧
    encodingsGet (ToLower L "utf-8") = some ⟨.Nop, "utf-8"⟩ ∧
    encodingsGet (ToLower L "Utf8") = some ⟨.Nop, "utf-8"⟩ := by
  refine ⟨?_, ?_, ?_, ?_⟩
  · cases hk : encodingsGet (ToLower L c₂) with
    | none =>
      left
      have hu : ¬ ToLower L c₂ = utf8 := by
        intro hu
        rw [hu, encodingsGet_utf8] at hk
        cases hk
      simp [ConvertToUTF8String, NewCharsetReader, h, hk, hu]
    | some csentry =>
      right
      refine ⟨csentry, by rw [h, hk], rfl, ?_, ?_, ?_⟩
      · simp [ConvertToUTF8String, h, hk]
      · simp [NewCharsetReader, h, hk]
      · by_cases hu : ToLower L c₂ = utf8 <;> simp [NewCharsetReader, h, hk, hu]
  · rw [ToLower_ascii L "UTF-8" (by decide)]; decide
  · rw [ToLower_ascii L "utf-8" (by decide)]; decide
  · rw [ToLower_ascii L "Utf8" (by decide)]; decide

theorem lookup_case_insensitive_witness :
    ToLower sampleLib "Latin1" = ToLower sampleLib "LATIN1" ∧
      ConvertToUTF8String sampleLib "Latin1" [0x41] = ConvertToUTF8String sampleLib "LATIN1" [0x41] ∧
      ConvertToUTF8String sampleLib "Latin1" [0x41] = ([0x41], none) :=
  ⟨by decide,
    (lookup_case_insensitive sampleLib "Latin1" "LATIN1" [0x41] (Reader.source [0x41])
      (by decide)).1.elim (fun hn => absurd hn.1 (by decide)) (fun hs => hs.choose_spec.2.2.1),
    by decide⟩

/-- C4: decoding canonical-encoding input is lossless. The label `"utf-8"` resolves to
`encoding.Nop`, whose decoder is run over the whole input; as long as that decoder changes
nothing, `ConvertToUTF8String("utf-8", []byte(s))` returns the bytes of `s` and a `nil` error,
for every string `s`. -/
theorem ConvertToUTF8String_utf8_lossless (L : Lib)
    (hNop : ∀ b, L.readAllDecoded .Nop b = (b, none)) (s : String) :
    ConvertToUTF8String L "utf-8" s.toUTF8.data.toList = (s.toUTF8.data.toList, none) := by
  simp [ConvertToUTF8String, ToLower_utf8, encodingsGet_utf8, hNop]

theorem ConvertToUTF8String_utf8_lossless_witness :
    ConvertToUTF8String sampleLib "utf-8" "café 世界".toUTF8.data.toList
      = ("café 世界".toUTF8.data.toList, none) :=
  ConvertToUTF8String_utf8_lossless sampleLib (fun _ => rfl) "café 世界"

/-- C5: for a label that is `"utf-8"` after lowercasing, `NewCharsetReader` returns the reader it
was given and a `nil` error; what it returns is not a transforming reader around the input. -/
theorem NewCharsetReader_utf8_passthrough {ρ : Type} (L : Lib) (charset : String)
    (input : Reader ρ) (h : ToLower L charset = utf8) :
    NewCharsetReader L charset input = (some input, none) ∧
      ∀ e, (NewCharsetReader L charset input).1 ≠ some (Reader.transform input e) := by
  have hr : NewCharsetReader L charset input = (some input, none) := by
    simp [NewCharsetReader, h]
  refine ⟨hr, ?_⟩
  intro e he
  rw [hr] at he
  exact Reader.transform_ne input e (Option.some.inj he).symm

theorem NewCharsetReader_utf8_passthrough_witness :
    ToLower sampleLib "UTF-8" = utf8 ∧
      NewCharsetReader sampleLib "UTF-8" (Reader.source [0x41])
        = (some (Reader.source [0x41]), none) :=
  ⟨by decide,
    (NewCharsetReader_utf8_passthrough sampleLib "UTF-8" (Reader.source [0x41]) (by decide)).1⟩

/-- C6: no partial result on failure. Whenever `ConvertToUTF8String` returns a non-nil error,
be it the unsupported-charset error or an error from reading through the decoder, the string it
returns is empty. -/
theorem ConvertToUTF8String_no_partial_result (L : Lib) (charset : String)
    (textBytes : List UInt8) (h : (ConvertToUTF8String L charset textBytes).2 ≠ none) :
    (ConvertToUTF8String L charset textBytes).1 = [] := by
  unfold ConvertToUTF8String at h ⊢
  cases hk : encodingsGet (ToLower L charset) with
  | none => simp
  | some csentry =>
    rcases hd : L.readAllDecoded csentry.e textBytes with ⟨output, _ | err⟩
    · simp [hk, hd] at h
    · simp [hd]

theorem ConvertToUTF8String_no_partial_result_witness :
    sampleLib.readAllDecoded .GBK [0x41, 0xFF] = ([0x41], some (.readError "invalid byte")) ∧
      (ConvertToUTF8String sampleLib "gbk" [0x41, 0xFF]).2 = some (.readError "invalid byte") ∧
      (ConvertToUTF8String sampleLib "gbk" [0x41, 0xFF]).1 = [] :=
  ⟨by decide, by decide,
    ConvertToUTF8String_no_partial_result sampleLib "gbk" [0x41, 0xFF] (by decide)⟩

/-! ### Closure of the table -/

/-- C10: closure of the alias table. The canonical name stored under any key is itself a key,
the exceptions allowed being the names `"replacement"` and `"x-mac-cyrillic"`. Of the two only
`"replacement"` is in fact missing from the keys; `"x-mac-cyrillic"` is a key. -/
theorem encodings_closure (key : String) (csentry : CharsetEntry)
    (h : encodingsGet key = some csentry) :
    (encodingsGet csentry.name ≠ none ∨ csentry.name = "replacement" ∨
        csentry.name = "x-mac-cyrillic") ∧
      (csentry.name ≠ "replacement" → encodingsGet csentry.name ≠ none) ∧
      encodingsGet "replacement" = none := by
  have hc := encodings_closed (key, csentry) (mem_of_encodingsGet h)
  simp only at hc
  rcases hc with hc | hc
  · exact ⟨Or.inl hc, fun _ => hc, by decide⟩
  · exact ⟨Or.inr (Or.inl hc), fun hne => absurd hc hne, by decide⟩

theorem encodings_closure_witness :
    encodingsGet "latin1" = some ⟨.Windows1252, "windows-1252"⟩ ∧
      encodingsGet "windows-1252" ≠ none :=
  ⟨by decide,
    (encodings_closure "latin1" ⟨.Windows1252, "windows-1252"⟩ (by decide)).2.1 (by decide)⟩

/-! ### The backtracking search -/

theorem run_cat (a b : Regexp) (s : List Char) :
    (Regexp.cat a b).run s = (a.run s).flatMap (fun m₁ =>
      (b.run m₁.rest).map (fun m₂ => ⟨m₁.text ++ m₂.text, m₂.rest, m₂.caps ++ m₁.caps⟩)) := by
  simp [Regexp.run]

theorem run_star (p : Char → Bool) (s : List Char) : (Regexp.star p).run s = starRun p s := by
  simp [Regexp.run]

theorem run_literalFold (w s : List Char) :
    (Regexp.literalFold w).run s
      = if startsWithFold w s then [⟨s.take w.length, s.drop w.length, []⟩] else [] := by
  induction w generalizing s with
  | nil => simp [Regexp.literalFold, Regexp.run, startsWithFold]
  | cons r w ih =>
    have hl : Regexp.literalFold (r :: w)
        = .cat (.rune (foldsTo r)) (Regexp.literalFold w) := rfl
    rw [hl, run_cat]
    cases s with
    | nil => simp [Regexp.run, startsWithFold]
    | cons c s =>
      by_cases hc : foldsTo r c = true
      · by_cases hw : startsWithFold w s = true
        · simp [Regexp.run, startsWithFold, hc, hw, ih]
        · simp [Regexp.run, startsWithFold, hc, hw, ih]
      · simp [Regexp.run, startsWithFold, hc]

theorem starRun_sound (p : Char → Bool) (s : List Char) :
    ∀ m ∈ starRun p s, s = m.text ++ m.rest ∧ (∀ c ∈ m.text, p c = true) ∧ m.caps = [] := by
  induction s with
  | nil => simp [starRun]
  | cons c s ih =>
    intro m hm
    by_cases hc : p c = true
    · simp only [starRun, hc, if_true, List.mem_append, List.mem_map, List.mem_singleton] at hm
      rcases hm with ⟨m', hm', rfl⟩ | rfl
      · obtain ⟨h1, h2, -⟩ := ih m' hm'
        refine ⟨by simp [← h1], ?_, rfl⟩
        intro x hx
        rcases List.mem_cons.mp hx with rfl | hx
        · exact hc
        · exact h2 x hx
      · simp
    · simp only [starRun, hc, Bool.false_eq_true, if_false, List.mem_singleton] at hm
      subst hm
      simp

theorem starRun_maximal (p : Char → Bool) (a b : List Char) (ha : ∀ c ∈ a, p c = true)
    (hb : ∀ c, b.head? = some c → p c = false) :
    ∃ l, starRun p (a ++ b) = ⟨a, b, []⟩ :: l := by
  induction a with
  | nil =>
    cases b with
    | nil => exact ⟨[], by simp [starRun]⟩
    | cons c b => exact ⟨[], by simp [starRun, hb c rfl]⟩
  | cons c a ih =>
    obtain ⟨l, hl⟩ := ih (fun x hx => ha x (List.mem_cons_of_mem _ hx))
    refine ⟨l.map (fun m => ⟨c :: m.text, m.rest, []⟩) ++ [⟨[], c :: (a ++ b), []⟩], ?_⟩
    simp [starRun, ha c (List.mem_cons_self _ _), hl]

theorem starRun_split (p : Char → Bool) (a b : List Char) (ha : ∀ c ∈ a, p c = true) :
    ∃ pre post, starRun p (a ++ b) = pre ++ ⟨a, b, []⟩ :: post ∧
      ∀ m ∈ pre, ∃ t, t ≠ [] ∧ (∀ c ∈ t, p c = true) ∧ b = t ++ m.rest := by
  induction a with
  | nil =>
    cases b with
    | nil => exact ⟨[], [], by simp [starRun], by simp⟩
    | cons c b =>
      by_cases hc : p c = true
      · refine ⟨(starRun p b).map (fun m => ⟨c :: m.text, m.rest, []⟩), [], ?_, ?_⟩
        · simp [starRun, hc]
        · intro m hm
          obtain ⟨m', hm', rfl⟩ := List.mem_map.mp hm
          obtain ⟨h1, h2, -⟩ := starRun_sound p b m' hm'
          refine ⟨c :: m'.text, by simp, ?_, by simp [← h1]⟩
          intro x hx
          rcases List.mem_cons.mp hx with rfl | hx
          · exact hc
          · exact h2 x hx
      · exact ⟨[], [], by simp [starRun, hc], by simp⟩
  | cons c a ih =>
    obtain ⟨pre, post, hl, hpre⟩ := ih (fun x hx => ha x (List.mem_cons_of_mem _ hx))
    refine ⟨pre.map (fun m => ⟨c :: m.text, m.rest, []⟩),
      post.map (fun m => ⟨c :: m.text, m.rest, []⟩) ++ [⟨[], c :: (a ++ b), []⟩], ?_, ?_⟩
    · simp [starRun, ha c (List.mem_cons_self _ _), hl]
    · intro m hm
      obtain ⟨m', hm', rfl⟩ := List.mem_map.mp hm
      exact hpre m' hm'

theorem exists_cons_of_head? {α : Type} {l : List α} {a : α} (h : l.head? = some a) :
    ∃ t, l = a :: t := by
  cases l with
  | nil => simp at h
  | cons b t => exact ⟨t, by simp at h; rw [h]⟩

theorem run_cat_head {a b : Regexp} {s : List Char} {m₁ m₂ : Submatch} {l₁ l₂ : List Submatch}
    (ha : a.run s = m₁ :: l₁) (hb : b.run m₁.rest = m₂ :: l₂) :
    ∃ l, (Regexp.cat a b).run s
      = ⟨m₁.text ++ m₂.text, m₂.rest, m₂.caps ++ m₁.caps⟩ :: l := by
  rw [run_cat, ha, List.flatMap_cons, hb]
  exact ⟨_, rfl⟩

/-! ### Case folding -/

theorem foldsTo_iff (r c : Char) : foldsTo r c = true ↔ c ∈ simpleFoldOrbit r := by
  simp [foldsTo]

theorem startsWithFold_append (w cs x : List Char) (h : startsWithFold w cs = true) :
    startsWithFold w (cs ++ x) = true := by
  induction w generalizing cs with
  | nil => simp [startsWithFold]
  | cons r w ih =>
    cases cs with
    | nil => simp [startsWithFold] at h
    | cons c cs =>
      simp only [startsWithFold, Bool.and_eq_true] at h
      simp [startsWithFold, h.1, ih cs h.2]

theorem startsWithFold_orbit (w cs : List Char) (h : startsWithFold w cs = true)
    (hl : cs.length = w.length) : ∀ d ∈ cs, ∃ r ∈ w, d ∈ simpleFoldOrbit r := by
  induction w generalizing cs with
  | nil =>
    cases cs with
    | nil => simp
    | cons c cs => simp at hl
  | cons r w ih =>
    cases cs with
    | nil => simp [startsWithFold] at h
    | cons c cs =>
      simp only [startsWithFold, Bool.and_eq_true] at h
      intro d hd
      rcases List.mem_cons.mp hd with rfl | hd
      · exact ⟨r, List.mem_cons_self _ _, (foldsTo_iff _ _).mp h.1⟩
      · obtain ⟨r', hr', ho⟩ := ih cs h.2 (by simpa using hl) d hd
        exact ⟨r', List.mem_cons_of_mem _ hr', ho⟩

theorem charset_orbit_not_c :
    ∀ r ∈ "harset=".data, ∀ d ∈ simpleFoldOrbit r, foldsTo 'c' d = false := by decide

theorem charset_orbit_not_nl :
    ∀ r ∈ "charset=".data, ∀ d ∈ simpleFoldOrbit r, anyCharNotNL d = true := by decide

/-! ### Lines and occurrences -/

theorem lineRest_append (a b : List Char) (ha : ∀ c ∈ a, anyCharNotNL c = true) :
    lineRest (a ++ b) = a ++ lineRest b := by
  induction a with
  | nil => rfl
  | cons c a ih =>
    have hc := ha c (List.mem_cons_self _ _)
    have := ih (fun x hx => ha x (List.mem_cons_of_mem _ hx))
    simp only [lineRest] at this ⊢
    simp [List.takeWhile_cons, hc, this]

theorem containsFold_suffix (w a b : List Char) (h : containsFold w (a ++ b) = false) :
    containsFold w b = false := by
  induction a with
  | nil => simpa using h
  | cons c a ih =>
    simp only [List.cons_append, containsFold, Bool.or_eq_false_iff] at h
    exact ih h.2

theorem startsWithFold_of_containsFold (w b : List Char) (h : containsFold w b = false) :
    startsWithFold w b = false := by
  cases b with
  | nil => simpa [containsFold] using h
  | cons c b =>
    simp only [containsFold, Bool.or_eq_false_iff] at h
    exact h.1

theorem startsWithFold_lineRest (w rest : List Char)
    (hw : ∀ r ∈ w, ∀ d ∈ simpleFoldOrbit r, anyCharNotNL d = true)
    (h : startsWithFold w rest = true) : startsWithFold w (lineRest rest) = true := by
  induction w generalizing rest with
  | nil => simp [startsWithFold]
  | cons r w ih =>
    cases rest with
    | nil => simp [startsWithFold] at h
    | cons c rest =>
      simp only [startsWithFold, Bool.and_eq_true] at h
      have hc : anyCharNotNL c = true :=
        hw r (List.mem_cons_self _ _) c ((foldsTo_iff _ _).mp h.1)
      have hr := ih rest (fun r' hr' => hw r' (List.mem_cons_of_mem _ hr')) h.2
      simp only [lineRest] at hr ⊢
      simp [List.takeWhile_cons, hc, startsWithFold, h.1, hr]

theorem not_startsWithFold_on_line (w t rest : List Char)
    (hw : ∀ r ∈ w, ∀ d ∈ simpleFoldOrbit r, anyCharNotNL d = true)
    (ht : ∀ c ∈ t, anyCharNotNL c = true)
    (hline : containsFold w (lineRest (t ++ rest)) = false) :
    startsWithFold w rest = false := by
  rw [lineRest_append t rest ht] at hline
  have h1 := startsWithFold_of_containsFold w _ (containsFold_suffix w t _ hline)
  cases h : startsWithFold w rest with
  | false => rfl
  | true => rw [startsWithFold_lineRest w rest hw h] at h1; cases h1

theorem no_later_charset (cs x t rest : List Char)
    (hcs : startsWithFold "charset=".data cs = true) (hlen : cs.length = 8)
    (hline : containsFold "charset=".data (lineRest x) = false)
    (ht : t ≠ []) (hnl : ∀ c ∈ t, anyCharNotNL c = true) (heq : cs ++ x = t ++ rest) :
    startsWithFold "charset=".data rest = false := by
  rcases List.append_eq_append_iff.mp heq with ⟨a, rfl, hx⟩ | ⟨c', hc', hrest⟩
  · -- `t` reaches past `cs`
    subst hx
    exact not_startsWithFold_on_line _ a rest charset_orbit_not_nl
      (fun c hc => hnl c (List.mem_append_right _ hc)) hline
  · -- `t` ends inside `cs`
    subst hrest
    cases c' with
    | nil =>
      exact not_startsWithFold_on_line _ [] x charset_orbit_not_nl (by simp) (by simpa using hline)
    | cons d c' =>
      cases t with
      | nil => exact absurd rfl ht
      | cons t₀ t =>
        subst hc'
        have hs : startsWithFold "harset=".data (t ++ d :: c') = true := by
          have := hcs
          simp only [show "charset=".data = 'c' :: "harset=".data from rfl, List.cons_append,
            startsWithFold, Bool.and_eq_true] at this
          exact this.2
        obtain ⟨r, hr, ho⟩ := startsWithFold_orbit _ _ hs (by simpa using hlen) d (by simp)
        have hd := charset_orbit_not_c r hr d ho
        simp [show "charset=".data = 'c' :: "harset=".data from rfl, startsWithFold, hd]

/-! ### Rune classes -/

theorem foldsTo_doubleQuote (c : Char) : foldsTo doubleQuote c = true ↔ c = doubleQuote := by
  rw [foldsTo_iff, show simpleFoldOrbit doubleQuote = [doubleQuote] from by decide]
  simp

theorem perlSpace_cases {c : Char} (h : perlSpace c = true) :
    c = '\t' ∨ c = '\n' ∨ c = Char.ofNat 0x0C ∨ c = '\r' ∨ c = ' ' := by
  simpa [perlSpace, or_assoc] using h

theorem perlSpace_ne_doubleQuote {c : Char} (h : perlSpace c = true) : c ≠ doubleQuote := by
  rcases perlSpace_cases h with rfl | rfl | rfl | rfl | rfl <;> decide

theorem charsetRuneFold_ne_doubleQuote {c : Char} (h : charsetRuneFold c = true) :
    c ≠ doubleQuote := by
  rintro rfl
  revert h
  decide

theorem charsetRuneFold_not_perlSpace {c : Char} (h : charsetRuneFold c = true) :
    perlSpace c = false := by
  cases hp : perlSpace c with
  | false => rfl
  | true =>
    exfalso
    revert h
    rcases perlSpace_cases hp with rfl | rfl | rfl | rfl | rfl <;> decide

/-! ### The attribute part of the pattern -/

theorem run_quest_doubleQuote (q y : List Char) (hq : q = [] ∨ q = [doubleQuote])
    (hy : ∀ c, y.head? = some c → c ≠ doubleQuote) :
    ∃ l, (Regexp.quest (.rune (foldsTo doubleQuote))).run (q ++ y) = ⟨q, y, []⟩ :: l := by
  rcases hq with rfl | rfl
  · cases y with
    | nil => exact ⟨[], by simp [Regexp.run]⟩
    | cons c y =>
      have hc : foldsTo doubleQuote c = false := by
        cases h : foldsTo doubleQuote c with
        | false => rfl
        | true => exact absurd ((foldsTo_doubleQuote c).mp h) (hy c rfl)
      exact ⟨[], by simp [Regexp.run, hc]⟩
  · have hc : foldsTo doubleQuote doubleQuote = true := by decide
    exact ⟨[⟨[], doubleQuote :: y, []⟩], by simp [Regexp.run, hc]⟩

theorem run_value (v r : List Char) (hv : v ≠ []) (hvc : ∀ c ∈ v, charsetRuneFold c = true)
    (hr : ∀ c, r.head? = some c → charsetRuneFold c = false) :
    ∃ l, (Regexp.capture 1 "charset" (Regexp.plus charsetRuneFold)).run (v ++ r)
      = ⟨v, r, [(1, v)]⟩ :: l := by
  cases v with
  | nil => exact absurd rfl hv
  | cons v₀ v =>
    obtain ⟨l, hl⟩ := starRun_maximal charsetRuneFold v r
      (fun c hc => hvc c (List.mem_cons_of_mem _ hc)) hr
    have h0 := hvc v₀ (List.mem_cons_self _ _)
    apply exists_cons_of_head?
    simp [Regexp.run, Regexp.plus, h0, hl]

theorem starRun_ne_nil (p : Char → Bool) (s : List Char) : starRun p s ≠ [] := by
  cases s with
  | nil => simp [starRun]
  | cons c s => by_cases hc : p c = true <;> simp [starRun, hc]

theorem run_trailer (r : List Char) :
    ∃ m l, (Regexp.cat (.star perlSpace) (.quest (.rune (foldsTo doubleQuote)))).run r = m :: l ∧
      m.caps = [] := by
  obtain ⟨m₁, l₁, h₁⟩ := List.exists_cons_of_ne_nil (starRun_ne_nil perlSpace r)
  have hc₁ : m₁.caps = [] := (starRun_sound perlSpace r m₁ (by simp [h₁])).2.2
  have h₂ : ∃ m₂ l₂, (Regexp.quest (.rune (foldsTo doubleQuote))).run m₁.rest = m₂ :: l₂ ∧
      m₂.caps = [] := by
    cases m₁.rest with
    | nil => exact ⟨⟨[], [], []⟩, [], by simp [Regexp.run], rfl⟩
    | cons c y =>
      by_cases hc : foldsTo doubleQuote c = true
      · exact ⟨⟨[c], y, []⟩, [⟨[], c :: y, []⟩], by simp [Regexp.run, hc], rfl⟩
      · exact ⟨⟨[], c :: y, []⟩, [], by simp [Regexp.run, hc], rfl⟩
  obtain ⟨m₂, l₂, h₂, hc₂⟩ := h₂
  obtain ⟨l, hl⟩ := run_cat_head (a := .star perlSpace) (by simpa [Regexp.run] using h₁) h₂
  exact ⟨_, l, hl, by simp [hc₁, hc₂]⟩

theorem run_literalFold_append (w cs x : List Char) (h : startsWithFold w cs = true)
    (hl : cs.length = w.length) :
    (Regexp.literalFold w).run (cs ++ x) = [⟨cs, x, []⟩] := by
  rw [run_literalFold, startsWithFold_append w cs x h, if_pos rfl, ← hl]
  simp

theorem head?_value (w v r : List Char) (hw : ∀ c ∈ w, perlSpace c = true) (hv : v ≠ [])
    (hvc : ∀ c ∈ v, charsetRuneFold c = true) :
    ∀ c, (w ++ (v ++ r)).head? = some c → c ≠ doubleQuote := by
  intro c hc
  cases w with
  | nil =>
    cases v with
    | nil => exact absurd rfl hv
    | cons v₀ v =>
      simp at hc
      subst hc
      exact charsetRuneFold_ne_doubleQuote (hvc _ (List.mem_cons_self _ _))
  | cons w₀ w =>
    simp at hc
    subst hc
    exact perlSpace_ne_doubleQuote (hw _ (List.mem_cons_self _ _))

theorem run_charsetAttr_head (cs q w v r : List Char)
    (hcs : startsWithFold "charset=".data cs = true) (hlen : cs.length = 8)
    (hq : q = [] ∨ q = [doubleQuote]) (hw : ∀ c ∈ w, perlSpace c = true) (hv : v ≠ [])
    (hvc : ∀ c ∈ v, charsetRuneFold c = true)
    (hr : ∀ c, r.head? = some c → charsetRuneFold c = false) :
    ∃ m l, charsetAttrRegexp.run (cs ++ (q ++ (w ++ (v ++ r)))) = m :: l ∧
      m.caps = [(1, v)] := by
  obtain ⟨mt, lt, ht, hct⟩ := run_trailer r
  obtain ⟨lv, hlv⟩ := run_value v r hv hvc hr
  obtain ⟨l₁, h₁⟩ := run_cat_head hlv ht
  have hws : ∃ l, (Regexp.star perlSpace).run (w ++ (v ++ r)) = ⟨w, v ++ r, []⟩ :: l := by
    rw [run_star]
    apply starRun_maximal perlSpace w (v ++ r) hw
    intro c hc
    cases v with
    | nil => exact absurd rfl hv
    | cons v₀ v =>
      simp at hc
      subst hc
      exact charsetRuneFold_not_perlSpace (hvc _ (List.mem_cons_self _ _))
  obtain ⟨lw, hlw⟩ := hws
  obtain ⟨l₂, h₂⟩ := run_cat_head hlw h₁
  obtain ⟨lq, hlq⟩ := run_quest_doubleQuote q (w ++ (v ++ r)) hq (head?_value w v r hw hv hvc)
  obtain ⟨l₃, h₃⟩ := run_cat_head hlq h₂
  obtain ⟨l₄, h₄⟩ := run_cat_head
    (run_literalFold_append "charset=".data cs (q ++ (w ++ (v ++ r))) hcs (by simpa using hlen)) h₃
  exact ⟨_, l₄, h₄, by simp [hct]⟩

theorem run_charsetAttr_nil (t : List Char) (h : startsWithFold "charset=".data t = false) :
    charsetAttrRegexp.run t = [] := by
  simp [charsetAttrRegexp, run_cat, run_literalFold, h]

/-! ### The whole pattern at one position -/

theorem run_metaTag_head (mt m cs q w v r : List Char)
    (hmt : startsWithFold "<meta".data mt = true) (hmlen : mt.length = 5)
    (hm : ∀ c ∈ m, anyCharNotNL c = true)
    (hcs : startsWithFold "charset=".data cs = true) (hlen : cs.length = 8)
    (hq : q = [] ∨ q = [doubleQuote]) (hw : ∀ c ∈ w, perlSpace c = true) (hv : v ≠ [])
    (hvc : ∀ c ∈ v, charsetRuneFold c = true)
    (hr : ∀ c, r.head? = some c → charsetRuneFold c = false)
    (hline : containsFold "charset=".data (lineRest (q ++ (w ++ (v ++ r)))) = false) :
    ∃ x l, metaTagCharsetRegexp.run (mt ++ (m ++ (cs ++ (q ++ (w ++ (v ++ r)))))) = x :: l ∧
      x.caps = [(1, v)] := by
  obtain ⟨ma, la, ha, hca⟩ := run_charsetAttr_head cs q w v r hcs hlen hq hw hv hvc hr
  obtain ⟨pre, post, hsplit, hpre⟩ := starRun_split anyCharNotNL m (cs ++ (q ++ (w ++ (v ++ r)))) hm
  have hf : pre.flatMap (fun m₁ => (charsetAttrRegexp.run m₁.rest).map
      (fun m₂ => (⟨m₁.text ++ m₂.text, m₂.rest, m₂.caps ++ m₁.caps⟩ : Submatch))) = [] := by
    rw [List.flatMap_eq_nil_iff]
    intro x hx
    obtain ⟨t, ht, hnl, heq⟩ := hpre x hx
    rw [run_charsetAttr_nil x.rest (no_later_charset cs _ t x.rest hcs hlen hline ht hnl heq)]
    rfl
  have hstar : ∃ l, (Regexp.cat (.star anyCharNotNL) charsetAttrRegexp).run
      (m ++ (cs ++ (q ++ (w ++ (v ++ r))))) = ⟨m ++ ma.text, ma.rest, ma.caps ++ []⟩ :: l := by
    apply exists_cons_of_head?
    rw [run_cat, run_star, hsplit, List.flatMap_append, hf, List.nil_append, List.flatMap_cons, ha]
    simp
  obtain ⟨ls, hls⟩ := hstar
  obtain ⟨l, hl⟩ := run_cat_head
    (run_literalFold_append "<meta".data mt _ hmt (by simpa using hmlen)) hls
  exact ⟨_, l, hl, by simp [hca]⟩

theorem run_metaTag_nil (t : List Char) (h : metaWithCharset t = false) :
    metaTagCharsetRegexp.run t = [] := by
  unfold metaTagCharsetRegexp
  rw [run_cat, run_literalFold]
  by_cases hs : startsWithFold "<meta".data t = true
  · have hline : containsFold "charset=".data (lineRest (t.drop 5)) = false := by
      simpa [metaWithCharset, hs] using h
    rw [if_pos hs, List.flatMap_singleton, List.map_eq_nil_iff, run_cat, run_star,
      List.flatMap_eq_nil_iff]
    intro x hx
    obtain ⟨heq, hnl, -⟩ := starRun_sound anyCharNotNL _ x hx
    simp only [show "<meta".data.length = 5 from rfl] at heq
    rw [heq] at hline
    rw [run_charsetAttr_nil x.rest
      (not_startsWithFold_on_line _ x.text x.rest charset_orbit_not_nl hnl hline)]
    rfl
  · rw [if_neg hs]
    rfl

/-! ### Scanning the input -/

theorem allMatches_of_head (re : Regexp) (s : List Char) (m : Submatch) (l : List Submatch)
    (h : re.run s = m :: l) : ∃ ms, re.allMatches s 0 false = m :: ms := by
  cases s with
  | nil => exact ⟨[], by simp [Regexp.allMatches, h]⟩
  | cons c s =>
    apply exists_cons_of_head?
    simp only [Regexp.allMatches, h, List.head?_cons]
    split <;> simp

theorem allMatches_skip (re : Regexp) (p t : List Char)
    (h : ∀ a b, p = a ++ b → b ≠ [] → re.run (b ++ t) = []) :
    re.allMatches (p ++ t) 0 false = re.allMatches t 0 false := by
  induction p with
  | nil => rfl
  | cons c p ih =>
    have h0 := h [] (c :: p) rfl (by simp)
    simp only [List.cons_append] at h0
    have e : re.allMatches (c :: (p ++ t)) 0 false = re.allMatches (p ++ t) 0 false := by
      simp [Regexp.allMatches, h0]
    rw [List.cons_append, e]
    exact ih (fun a b hab hb => h (c :: a) b (by simp [hab]) hb)

theorem allMatches_nil (re : Regexp) (s : List Char)
    (h : ∀ a b, s = a ++ b → re.run b = []) (k : Nat) (e : Bool) :
    re.allMatches s k e = [] := by
  induction s generalizing k e with
  | nil =>
    cases k with
    | zero => simp [Regexp.allMatches, h [] [] rfl]
    | succ k => simp [Regexp.allMatches]
  | cons c s ih =>
    have ih' := ih (fun a b hab => h (c :: a) b (by simp [hab]))
    cases k with
    | zero => simp [Regexp.allMatches, h [] (c :: s) rfl, ih']
    | succ k => simp [Regexp.allMatches, ih']

theorem allMatches_mem (re : Regexp) (s : List Char) (k : Nat) (e : Bool) :
    ∀ m ∈ re.allMatches s k e, ∃ b, m ∈ re.run b := by
  induction s generalizing k e with
  | nil =>
    intro m hm
    cases k with
    | zero =>
      cases hr : re.run [] with
      | nil => simp [Regexp.allMatches, hr] at hm
      | cons x l =>
        cases e with
        | true => simp [Regexp.allMatches, hr] at hm
        | false =>
          simp [Regexp.allMatches, hr] at hm
          exact ⟨[], by simp [hr, hm]⟩
    | succ k => simp [Regexp.allMatches] at hm
  | cons c s ih =>
    intro m hm
    cases k with
    | zero =>
      cases hr : re.run (c :: s) with
      | nil =>
        simp only [Regexp.allMatches, hr, List.head?_nil] at hm
        exact ih _ _ m hm
      | cons x l =>
        simp only [Regexp.allMatches, hr, List.head?_cons] at hm
        split at hm
        · split at hm
          · exact ih _ _ m hm
          · rcases List.mem_cons.mp hm with rfl | hm
            · exact ⟨c :: s, by simp [hr]⟩
            · exact ih _ _ m hm
        · rcases List.mem_cons.mp hm with rfl | hm
          · exact ⟨c :: s, by simp [hr]⟩
          · exact ih _ _ m hm
    | succ k =>
      simp only [Regexp.allMatches] at hm
      exact ih _ _ m hm

/-! ### From a match to the result of `FindCharsetInHTML` -/

theorem metaTagCharsetIndex_eq : metaTagCharsetIndex = 1 := by decide

theorem FindCharsetInHTML_of_head (html : String) (m : Submatch) (ms : List Submatch)
    (v : List Char) (h : metaTagCharsetRegexp.allMatches html.data 0 false = m :: ms)
    (hc : m.caps = [(1, v)]) : FindCharsetInHTML html = String.mk v := by
  have hn : metaTagCharsetRegexp.NumSubexp = 1 := by decide
  simp [FindCharsetInHTML, Regexp.FindAllStringSubmatch, h, Regexp.submatchStrings,
    metaTagCharsetIndex_eq, hn, hc, List.range_succ, List.lookup]

theorem FindCharsetInHTML_of_nil (html : String)
    (h : metaTagCharsetRegexp.allMatches html.data 0 false = []) : FindCharsetInHTML html = "" := by
  simp [FindCharsetInHTML, Regexp.FindAllStringSubmatch, h]

/-! ### Capture groups of every match -/

theorem mem_run_cat {a b : Regexp} {s : List Char} {m : Submatch}
    (h : m ∈ (Regexp.cat a b).run s) :
    ∃ m₁ ∈ a.run s, ∃ m₂ ∈ b.run m₁.rest, m.caps = m₂.caps ++ m₁.caps := by
  rw [run_cat, List.mem_flatMap] at h
  obtain ⟨m₁, h₁, h⟩ := h
  obtain ⟨m₂, h₂, rfl⟩ := List.mem_map.mp h
  exact ⟨m₁, h₁, m₂, h₂, rfl⟩

theorem caps_literalFold (w s : List Char) : ∀ m ∈ (Regexp.literalFold w).run s, m.caps = [] := by
  intro m hm
  rw [run_literalFold] at hm
  split at hm
  · simp at hm
    rw [hm]
  · simp at hm

theorem caps_star (p : Char → Bool) (s : List Char) :
    ∀ m ∈ (Regexp.star p).run s, m.caps = [] := by
  intro m hm
  rw [run_star] at hm
  exact (starRun_sound p s m hm).2.2

theorem caps_rune (p : Char → Bool) (s : List Char) :
    ∀ m ∈ (Regexp.rune p).run s, m.caps = [] ∧ m.text ≠ [] := by
  intro m hm
  cases s with
  | nil => simp [Regexp.run] at hm
  | cons c s =>
    by_cases hc : p c = true
    · simp [Regexp.run, hc] at hm
      simp [hm]
    · simp [Regexp.run, hc] at hm

theorem caps_quest_rune (p : Char → Bool) (s : List Char) :
    ∀ m ∈ (Regexp.quest (.rune p)).run s, m.caps = [] := by
  intro m hm
  simp only [Regexp.run, List.mem_append, List.mem_singleton] at hm
  rcases hm with hm | rfl
  · exact (caps_rune p s m hm).1
  · rfl

theorem caps_value (p : Char → Bool) (name : String) (s : List Char) :
    ∀ m ∈ (Regexp.capture 1 name (Regexp.plus p)).run s, ∃ t, t ≠ [] ∧ m.caps = [(1, t)] := by
  intro m hm
  simp only [Regexp.run, Regexp.plus, List.mem_map, List.mem_flatMap] at hm
  obtain ⟨x, ⟨m₁, h₁, m₂, h₂, rfl⟩, rfl⟩ := hm
  have hc₁ := caps_rune p s m₁ (by simpa [Regexp.run] using h₁)
  have hc₂ := (starRun_sound p _ m₂ h₂).2.2
  exact ⟨m₁.text ++ m₂.text, by simp [hc₁.2], by simp [hc₁.1, hc₂]⟩

theorem caps_metaTag (s : List Char) :
    ∀ m ∈ metaTagCharsetRegexp.run s, ∃ t, t ≠ [] ∧ m.caps = [(1, t)] := by
  intro m hm
  obtain ⟨a₁, ha₁, b₁, hb₁, e₁⟩ := mem_run_cat hm
  obtain ⟨a₂, ha₂, b₂, hb₂, e₂⟩ := mem_run_cat hb₁
  obtain ⟨a₃, ha₃, b₃, hb₃, e₃⟩ := mem_run_cat hb₂
  obtain ⟨a₄, ha₄, b₄, hb₄, e₄⟩ := mem_run_cat hb₃
  obtain ⟨a₅, ha₅, b₅, hb₅, e₅⟩ := mem_run_cat hb₄
  obtain ⟨a₆, ha₆, b₆, hb₆, e₆⟩ := mem_run_cat hb₅
  obtain ⟨a₇, ha₇, b₇, hb₇, e₇⟩ := mem_run_cat hb₆
  obtain ⟨t, ht, hcap⟩ := caps_value _ _ _ a₆ ha₆
  refine ⟨t, ht, ?_⟩
  rw [e₁, e₂, e₃, e₄, e₅, e₆, e₇, caps_literalFold _ _ a₁ ha₁, caps_star _ _ a₂ ha₂,
    caps_literalFold _ _ a₃ ha₃, caps_quest_rune _ _ a₄ ha₄, caps_star _ _ a₅ ha₅, hcap,
    caps_star _ _ a₇ ha₇, caps_quest_rune _ _ b₇ hb₇]
  rfl

/-! ### The leftmost declaration -/

theorem noMetaWithCharset_spec (p t : List Char) (h : noMetaWithCharset p t = true) :
    ∀ a b, p = a ++ b → b ≠ [] → metaTagCharsetRegexp.run (b ++ t) = [] := by
  induction p with
  | nil =>
    intro a b hab hb
    have : b = [] := by
      have := congrArg List.length hab
      simp only [List.length_nil, List.length_append] at this
      exact List.length_eq_zero.mp (by omega)
    exact absurd this hb
  | cons c p ih =>
    simp only [noMetaWithCharset, Bool.and_eq_true, Bool.not_eq_true'] at h
    intro a b hab hb
    cases a with
    | nil =>
      simp only [List.nil_append] at hab
      subst hab
      exact run_metaTag_nil _ h.1
    | cons a₀ a =>
      simp only [List.cons_append, List.cons.injEq] at hab
      exact ih h.2 a b hab.2 hb

theorem FindCharsetInHTML_of_declaration (p mt m cs q w v r : List Char)
    (hp : noMetaWithCharset p (mt ++ (m ++ (cs ++ (q ++ (w ++ (v ++ r)))))) = true)
    (hmt : sameFold "<meta".data mt = true) (hm : ∀ c ∈ m, anyCharNotNL c = true)
    (hcs : sameFold "charset=".data cs = true)
    (hq : q = [] ∨ q = [doubleQuote]) (hw : ∀ c ∈ w, perlSpace c = true) (hv : v ≠ [])
    (hvc : ∀ c ∈ v, charsetRuneFold c = true) (hr : valueEnds r = true)
    (hline : containsFold "charset=".data (lineRest (q ++ (w ++ (v ++ r)))) = false) :
    FindCharsetInHTML (String.mk (p ++ (mt ++ (m ++ (cs ++ (q ++ (w ++ (v ++ r))))))))
      = String.mk v := by
  simp only [sameFold, Bool.and_eq_true, beq_iff_eq] at hmt hcs
  have hr' : ∀ c, r.head? = some c → charsetRuneFold c = false := by
    intro c hc
    cases r with
    | nil => simp at hc
    | cons r₀ r =>
      simp at hc
      subst hc
      simpa [valueEnds] using hr
  obtain ⟨x, l, hx, hcaps⟩ := run_metaTag_head mt m cs q w v r hmt.2 hmt.1 hm hcs.2 hcs.1 hq hw hv
    hvc hr' hline
  obtain ⟨ms, hms⟩ := allMatches_of_head _ _ x l hx
  apply FindCharsetInHTML_of_head _ x ms v _ hcaps
  show metaTagCharsetRegexp.allMatches (p ++ _) 0 false = _
  rw [allMatches_skip _ p _ (noMetaWithCharset_spec p _ hp), hms]

theorem compatFold_of_startsWithFold (w b t : List Char)
    (h : startsWithFold w (b ++ t) = true) : compatFold w b = true := by
  induction w generalizing b with
  | nil => simp [compatFold]
  | cons r w ih =>
    cases b with
    | nil => simp [compatFold]
    | cons c b =>
      simp only [List.cons_append, startsWithFold, Bool.and_eq_true] at h
      simp [compatFold, h.1, ih b h.2]

theorem noMetaWithCharset_of_noMetaStart (p t : List Char) (h : noMetaStart p = true) :
    noMetaWithCharset p t = true := by
  induction p with
  | nil => rfl
  | cons c p ih =>
    simp only [noMetaStart, Bool.and_eq_true, Bool.not_eq_true'] at h
    have hs : startsWithFold "<meta".data (c :: p ++ t) = false := by
      cases hs : startsWithFold "<meta".data (c :: p ++ t) with
      | false => rfl
      | true => rw [compatFold_of_startsWithFold _ _ _ hs] at h; cases h.1
    unfold noMetaWithCharset metaWithCharset
    rw [hs, ih h.2]
    rfl

theorem startsWithFold_exists (w s : List Char) (h : startsWithFold w s = true) :
    ∀ r ∈ w, ∃ d ∈ s, foldsTo r d = true := by
  induction w generalizing s with
  | nil => simp
  | cons r w ih =>
    cases s with
    | nil => simp [startsWithFold] at h
    | cons c s =>
      simp only [startsWithFold, Bool.and_eq_true] at h
      intro r' hr'
      rcases List.mem_cons.mp hr' with rfl | hr'
      · exact ⟨c, List.mem_cons_self _ _, h.1⟩
      · obtain ⟨d, hd, hf⟩ := ih s h.2 r' hr'
        exact ⟨d, List.mem_cons_of_mem _ hd, hf⟩

theorem containsFold_of_no_equals (t : List Char) (h : ∀ c ∈ t, foldsTo '=' c = false) :
    containsFold "charset=".data t = false := by
  have key : ∀ s : List Char, (∀ c ∈ s, foldsTo '=' c = false) →
      startsWithFold "charset=".data s = false := by
    intro s hs
    cases hst : startsWithFold "charset=".data s with
    | false => rfl
    | true =>
      obtain ⟨d, hd, hf⟩ := startsWithFold_exists _ _ hst '=' (by decide)
      rw [hs d hd] at hf
      cases hf
  induction t with
  | nil => simpa [containsFold] using key [] (by simp)
  | cons c t ih =>
    simp only [containsFold, Bool.or_eq_false_iff]
    exact ⟨key _ h, ih (fun x hx => h x (List.mem_cons_of_mem _ hx))⟩

theorem containsFold_append_left (w x c : List Char) (h : containsFold w x = true) :
    containsFold w (x ++ c) = true := by
  induction x with
  | nil =>
    have hw : startsWithFold w [] = true := by simpa [containsFold] using h
    have := startsWithFold_append w [] c hw
    cases c with
    | nil => simpa [containsFold] using hw
    | cons c₀ c =>
      simp only [List.nil_append] at this
      simp [containsFold, this]
  | cons x₀ x ih =>
    simp only [containsFold, Bool.or_eq_true] at h
    rcases h with h | h
    · have := startsWithFold_append w (x₀ :: x) c h
      simp only [List.cons_append] at this
      simp [containsFold, this]
    · simp [containsFold, ih h]

theorem containsFold_middle (w a x c : List Char) (h : containsFold w (a ++ (x ++ c)) = false) :
    containsFold w x = false := by
  have h1 := containsFold_suffix w a _ h
  cases hx : containsFold w x with
  | false => rfl
  | true => rw [containsFold_append_left w x c hx] at h1; cases h1

theorem data_ne_nil {v : String} (h : v ≠ "") : v.data ≠ [] := by
  intro hd
  apply h
  cases v
  simp only at hd
  rw [hd]

/-- C7, as stated, fails: with two declarations on one line the value returned is the second
one, `iso-8859-1`, not the first declared value `utf-8`. The greedy `.*` after `<meta` runs to
the last `charset=` of the line. -/
theorem FindCharsetInHTML_second_on_line :
    FindCharsetInHTML "<meta charset=\"utf-8\"><meta charset=\"iso-8859-1\">" = "iso-8859-1" ∧
      FindCharsetInHTML "<meta charset=\"utf-8\"><meta charset=\"iso-8859-1\">" ≠ "utf-8" := by
  decide

/-- C7, amended: take the leftmost `<meta` (any letter case) that has a `charset=` after it on
its line. If the text from there reads `<meta`, then `m` without a newline, then `charset=` (any
letter case), an optional `"`, optional whitespace and a non-empty value `v` that ends there, and
no further `charset=` follows on the rest of that line, then `FindCharsetInHTML` returns `v`,
whatever is declared on later lines. Nothing is asked of `m`, so when the line holds several
`charset=` the value returned is the one after the last of them. -/
theorem FindCharsetInHTML_leftmost_declaration (p mt m cs q w v r : String)
    (hp : noMetaWithCharset p.data (mt ++ m ++ cs ++ q ++ w ++ v ++ r).data = true)
    (hmt : sameFold "<meta".data mt.data = true)
    (hm : ∀ c ∈ m.data, anyCharNotNL c = true)
    (hcs : sameFold "charset=".data cs.data = true)
    (hq : q = "" ∨ q = "\"")
    (hw : ∀ c ∈ w.data, perlSpace c = true)
    (hv : v ≠ "") (hvc : ∀ c ∈ v.data, charsetRuneFold c = true)
    (hr : valueEnds r.data = true)
    (hline : containsFold "charset=".data (lineRest (q ++ w ++ v ++ r).data) = false) :
    FindCharsetInHTML (p ++ mt ++ m ++ cs ++ q ++ w ++ v ++ r) = v := by
  have hq' : q.data = [] ∨ q.data = [doubleQuote] := by
    rcases hq with rfl | rfl
    · exact Or.inl rfl
    · exact Or.inr rfl
  simp only [String.data_append, List.append_assoc] at hp hline
  have := FindCharsetInHTML_of_declaration p.data mt.data m.data cs.data q.data w.data v.data
    r.data hp hmt hm hcs hq' hw (data_ne_nil hv) hvc hr hline
  have e : p ++ mt ++ m ++ cs ++ q ++ w ++ v ++ r
      = String.mk (p.data ++ (mt.data ++ (m.data ++ (cs.data ++ (q.data ++ (w.data ++
          (v.data ++ r.data))))))) := by
    apply String.ext
    simp [String.data_append, List.append_assoc]
  rw [e, this]

theorem FindCharsetInHTML_leftmost_declaration_witness :
    FindCharsetInHTML ("<html>\n<meta name=\"viewport\">\n" ++ "<META" ++
        " http-equiv=\"Content-Type\" content=\"text/html; " ++ "CharSet=" ++ "" ++ "" ++ "utf-8" ++
        "\">\n<meta charset=\"latin1\">") = "utf-8" :=
  FindCharsetInHTML_leftmost_declaration "<html>\n<meta name=\"viewport\">\n" "<META"
    " http-equiv=\"Content-Type\" content=\"text/html; " "CharSet=" "" "" "utf-8"
    "\">\n<meta charset=\"latin1\">"
    (by decide) (by decide) (by decide) (by decide) (by decide) (by decide) (by decide)
    (by decide) (by decide) (by decide)

/-- C8: the extracted charset is returned verbatim. For every non-empty `v` made of ASCII
letters, digits, `_`, `.`, `:` and `-`, the text `<html><head><meta charset="v"></head>` yields
exactly `v`: no lowercasing, no look-up in the alias table. -/
theorem FindCharsetInHTML_verbatim (v : String) (hv : v ≠ "")
    (hvc : ∀ c ∈ v.data, charsetRune c = true) :
    FindCharsetInHTML ("<html><head><meta charset=\"" ++ v ++ "\"></head>") = v := by
  have hfold : ∀ c ∈ v.data, charsetRuneFold c = true := by
    intro c hc
    simp [charsetRuneFold, hvc c hc]
  have hline : containsFold "charset=".data
      (lineRest ([doubleQuote] ++ ([] ++ (v.data ++ "\"></head>".data)))) = false := by
    apply containsFold_of_no_equals
    intro c hc
    have hc' := (List.takeWhile_sublist _).subset hc
    simp only [List.nil_append, List.mem_append, List.mem_singleton] at hc'
    rcases hc' with rfl | hc' | hc'
    · decide
    · have := hvc c hc'
      cases hf : foldsTo '=' c with
      | false => rfl
      | true =>
        rw [foldsTo_iff, show simpleFoldOrbit '=' = ['='] from by decide, List.mem_singleton] at hf
        subst hf
        revert this
        decide
    · exact (by decide : ∀ d ∈ "\"></head>".data, foldsTo '=' d = false) c hc'
  have := FindCharsetInHTML_of_declaration "<html><head>".data "<meta".data " ".data
    "charset=".data [doubleQuote] [] v.data "\"></head>".data
    (noMetaWithCharset_of_noMetaStart _ _ (by decide)) (by decide) (by decide) (by decide)
    (Or.inr rfl) (by simp) (data_ne_nil hv) hfold (by decide) hline
  have e : "<html><head><meta charset=\"" ++ v ++ "\"></head>"
      = String.mk ("<html><head>".data ++ ("<meta".data ++ (" ".data ++ ("charset=".data ++
          ([doubleQuote] ++ ([] ++ (v.data ++ "\"></head>".data))))))) := by
    apply String.ext
    simp only [String.data_append, List.append_assoc]
    rfl
  rw [e, this]

theorem FindCharsetInHTML_verbatim_witness :
    FindCharsetInHTML ("<html><head><meta charset=\"" ++ "ISO-8859-1" ++ "\"></head>")
        = "ISO-8859-1" ∧ "ISO-8859-1" ≠ "iso-8859-1" :=
  ⟨FindCharsetInHTML_verbatim "ISO-8859-1" (by decide) (by decide), by decide⟩

theorem metaWithCharset_of_no_meta (s a b : List Char)
    (h : containsFold "<meta".data s = false) (hs : s = a ++ b) : metaWithCharset b = false := by
  subst hs
  have := startsWithFold_of_containsFold _ _ (containsFold_suffix _ a b h)
  simp [metaWithCharset, this]

theorem metaWithCharset_of_no_charset (s a b : List Char)
    (h : containsFold "charset=".data s = false) (hs : s = a ++ b) :
    metaWithCharset b = false := by
  have e : s = (a ++ b.take 5) ++ (lineRest (b.drop 5) ++ (b.drop 5).dropWhile anyCharNotNL) := by
    rw [hs, lineRest, List.takeWhile_append_dropWhile, List.append_assoc, List.take_append_drop]
  rw [e] at h
  have := containsFold_middle _ _ _ _ h
  unfold metaWithCharset
  rw [this, Bool.and_false]

/-- C9: `FindCharsetInHTML` returns the empty string when no charset is declared, that is for
every text without an occurrence of `<meta` in any letter case, and for every text without an
occurrence of `charset=` in any letter case (letter case as the `(?i)` flag takes it, which for
`s` includes U+017F); `<html><head></head>` is such a text. Conversely, whenever the pattern
matches, the value returned is not empty. -/
theorem FindCharsetInHTML_empty (html : String) :
    ((containsFold "<meta".data html.data = false ∨
        containsFold "charset=".data html.data = false) → FindCharsetInHTML html = "") ∧
      FindCharsetInHTML "<html><head></head>" = "" ∧
      (metaTagCharsetRegexp.FindAllStringSubmatch html ≠ [] → FindCharsetInHTML html ≠ "") := by
  refine ⟨?_, by decide, ?_⟩
  · intro h
    apply FindCharsetInHTML_of_nil
    apply allMatches_nil
    intro a b hab
    apply run_metaTag_nil
    rcases h with h | h
    · exact metaWithCharset_of_no_meta _ a b h hab
    · exact metaWithCharset_of_no_charset _ a b h hab
  · intro h
    cases hm : metaTagCharsetRegexp.allMatches html.data 0 false with
    | nil => simp [Regexp.FindAllStringSubmatch, hm] at h
    | cons m ms =>
      obtain ⟨b, hb⟩ := allMatches_mem _ _ _ _ m (by rw [hm]; exact List.mem_cons_self _ _)
      obtain ⟨t, ht, hc⟩ := caps_metaTag b m hb
      rw [FindCharsetInHTML_of_head html m ms t hm hc]
      intro he
      apply ht
      exact congrArg String.data he

theorem FindCharsetInHTML_empty_witness :
    FindCharsetInHTML "<html><head></head>" = "" ∧
      FindCharsetInHTML "<p>charset=utf-8</p>" = "" ∧
      FindCharsetInHTML "<meta name=\"x\">" = "" ∧
      FindCharsetInHTML "<META CHARSET=x>" ≠ "" :=
  ⟨(FindCharsetInHTML_empty "<html><head></head>").1 (Or.inl (by decide)),
    (FindCharsetInHTML_empty "<p>charset=utf-8</p>").1 (Or.inl (by decide)),
    (FindCharsetInHTML_empty "<meta name=\"x\">").1 (Or.inr (by decide)),
    (FindCharsetInHTML_empty "<META CHARSET=x>").2.2 (by decide)⟩

/-! ### The table, entry by entry -/

set_option maxRecDepth 1000000 in
theorem encodings_keys_lower :
    ∀ p ∈ encodings, p.1.data.all (fun c => c.toNat < 128) = true ∧
      p.1.data.map asciiToLower = p.1.data ∧ p.1.data.any Char.isUpper = false := by
  decide!

set_option maxRecDepth 1000000 in
theorem encodings_fixed :
    ∀ p ∈ encodings, encodingsGet p.2.name = some p.2 ∨ p.2 = ⟨.Replacement, "replacement"⟩ := by
  decide!

set_option maxRecDepth 1000000 in
theorem encodings_replacement_keys :
    ∀ p ∈ encodings, p.2.e = .Replacement →
      p.1 ∈ ["csiso2022kr", "iso-2022-kr", "iso-2022-cn", "iso-2022-cn-ext"] := by
  decide!

theorem ToLower_key (L : Lib) {key : String} {csentry : CharsetEntry}
    (h : encodingsGet key = some csentry) : ToLower L key = key := by
  obtain ⟨h1, h2, -⟩ := encodings_keys_lower (key, csentry) (mem_of_encodingsGet h)
  simp only at h1 h2
  rw [ToLower_ascii L key h1, h2]

theorem supported_of_lookup {ρ : Type} (L : Lib) (hL : L.ownErrors) (label : String)
    (csentry : CharsetEntry) (h : encodingsGet (ToLower L label) = some csentry)
    (textBytes : List UInt8) (input : Reader ρ) :
    (∀ format arg, (ConvertToUTF8String L label textBytes).2 ≠ some (.errorf format arg)) ∧
      (NewCharsetReader L label input).2 = none := by
  constructor
  · intro format arg
    unfold ConvertToUTF8String
    rw [h]
    rcases hd : L.readAllDecoded csentry.e textBytes with ⟨output, _ | err⟩
    · simp [hd]
    · obtain ⟨msg, rfl⟩ := hL csentry.e textBytes err (by rw [hd])
      simp [hd]
  · by_cases hu : ToLower L label = utf8 <;> simp [NewCharsetReader, hu, h]

theorem sampleLib_ownErrors : sampleLib.ownErrors := by
  intro e b err h
  cases e
  case Nop => simp [sampleLib] at h
  all_goals
    simp only [sampleLib] at h
    split at h
    · cases h
    · exact ⟨_, (Option.some.inj h).symm⟩



theorem NewCharsetReader_fails_iff {ρ : Type} (L : Lib) (label : String) (input : Reader ρ) :
    (NewCharsetReader L label input).2 ≠ none ↔ encodingsGet (ToLower L label) = none := by
  by_cases hu : ToLower L label = utf8
  · simp [NewCharsetReader, hu, encodingsGet_utf8]
  · cases hk : encodingsGet (ToLower L label) <;> simp [NewCharsetReader, hu, hk]

/-! ### Aliases -/

/-- C11: the documented approximate aliases. The labels `us-ascii` and `ansi_x3.4-1968` resolve
to the entry with name `windows-1252` and decoder `charmap.Windows1252`; the labels `iso-2022-kr`,
`iso-2022-cn` and `iso-2022-cn-ext` resolve to the entry with name `replacement` and decoder
`encoding.Replacement`; and a label that resolves to the replacement decoder has one of these
three or `csiso2022kr` as its lowercased form. -/
theorem approximate_aliases (L : Lib) (label : String) (csentry : CharsetEntry)
    (h : encodingsGet (ToLower L label) = some csentry) (hr : csentry.e = .Replacement) :
    ToLower L label ∈ ["csiso2022kr", "iso-2022-kr", "iso-2022-cn", "iso-2022-cn-ext"] ∧
      encodingsGet (ToLower L "us-ascii") = some ⟨.Windows1252, "windows-1252"⟩ ∧
      encodingsGet (ToLower L "ansi_x3.4-1968") = some ⟨.Windows1252, "windows-1252"⟩ ∧
      encodingsGet (ToLower L "iso-2022-kr") = some ⟨.Replacement, "replacement"⟩ ∧
      encodingsGet (ToLower L "iso-2022-cn") = some ⟨.Replacement, "replacement"⟩ ∧
      encodingsGet (ToLower L "iso-2022-cn-ext") = some ⟨.Replacement, "replacement"⟩ := by
  refine ⟨encodings_replacement_keys (_, csentry) (mem_of_encodingsGet h) hr, ?_, ?_, ?_, ?_, ?_⟩
  · rw [ToLower_ascii L _ (by decide)]; decide
  · rw [ToLower_ascii L _ (by decide)]; decide
  · rw [ToLower_ascii L _ (by decide)]; decide
  · rw [ToLower_ascii L _ (by decide)]; decide
  · rw [ToLower_ascii L _ (by decide)]; decide

theorem approximate_aliases_witness :
    encodingsGet (ToLower sampleLib "CSISO2022KR") = some ⟨.Replacement, "replacement"⟩ ∧
      ToLower sampleLib "CSISO2022KR"
        ∈ ["csiso2022kr", "iso-2022-kr", "iso-2022-cn", "iso-2022-cn-ext"] :=
  ⟨by decide, (approximate_aliases sampleLib "CSISO2022KR" ⟨.Replacement, "replacement"⟩
    (by decide) rfl).1⟩

theorem iso8859_keys :
    ∀ n ∈ [1, 2, 3, 4, 5, 6, 7, 8, 9, 10, 11, 13, 14, 15, 16],
      encodingsGet ("iso-8859-" ++ toString n) ≠ none := by
  decide

/-- C12: ISO-8859 coverage. For `N` from 1 to 16 other than 12, a label that is `iso-8859-N`
after lowercasing is found in the table, so `NewCharsetReader` returns no error and any error of
`ConvertToUTF8String` is one of the decoding library, not a `fmt.Errorf` value; a label that is
`iso-8859-12` after lowercasing makes both functions return the unsupported-charset error. -/
theorem iso8859_coverage {ρ : Type} (L : Lib) (hL : L.ownErrors) (n : Nat) (label : String)
    (textBytes : List UInt8) (input : Reader ρ) :
    (1 ≤ n → n ≤ 16 → n ≠ 12 → ToLower L label = "iso-8859-" ++ toString n →
      encodingsGet (ToLower L label) ≠ none ∧
      (∀ format arg, (ConvertToUTF8String L label textBytes).2 ≠ some (.errorf format arg)) ∧
      (NewCharsetReader L label input).2 = none) ∧
    (ToLower L label = "iso-8859-12" →
      ConvertToUTF8String L label textBytes
        = ([], some (.errorf "unsupported charset %q" label)) ∧
      NewCharsetReader L label input = (none, some (.errorf "unsupported charset %q" label))) := by
  constructor
  · intro h1 h16 h12 hl
    have hmem : n ∈ [1, 2, 3, 4, 5, 6, 7, 8, 9, 10, 11, 13, 14, 15, 16] := by
      simp only [List.mem_cons, List.mem_singleton, List.mem_nil_iff, or_false]
      omega
    have hk := iso8859_keys n hmem
    rw [← hl] at hk
    cases hc : encodingsGet (ToLower L label) with
    | none => exact absurd hc hk
    | some csentry =>
      exact ⟨by simp, supported_of_lookup L hL label csentry hc textBytes input⟩
  · intro hl
    have hk : encodingsGet (ToLower L label) = none := by rw [hl]; decide
    have hu : ¬ ToLower L label = utf8 := by rw [hl]; decide
    simp [ConvertToUTF8String, NewCharsetReader, hk, hu]

theorem iso8859_coverage_witness :
    (∀ format arg, (ConvertToUTF8String sampleLib "ISO-8859-15" [0x41]).2
        ≠ some (.errorf format arg)) ∧
      (NewCharsetReader sampleLib "ISO-8859-15" (Reader.source [0x41])).2 = none ∧
      ConvertToUTF8String sampleLib "ISO-8859-12" [0x41]
        = ([], some (.errorf "unsupported charset %q" "ISO-8859-12")) :=
  ⟨((iso8859_coverage sampleLib sampleLib_ownErrors 15 "ISO-8859-15" [0x41]
      (Reader.source [0x41])).1 (by decide) (by decide) (by decide) (by decide)).2.1,
    ((iso8859_coverage sampleLib sampleLib_ownErrors 15 "ISO-8859-15" [0x41]
      (Reader.source [0x41])).1 (by decide) (by decide) (by decide) (by decide)).2.2,
    ((iso8859_coverage sampleLib sampleLib_ownErrors 12 "ISO-8859-12" [0x41]
      (Reader.source [0x41])).2 (by decide)).1⟩

/-- C13: the unlabeled `utf-16` defaults to little-endian. It resolves to the entry of
`utf-16le`, with name `utf-16le` and the little-endian decoder that ignores the BOM, while
`utf-16be` resolves to another entry, with name `utf-16be` and the big-endian decoder. -/
theorem utf16_defaults_to_little_endian (L : Lib) :
    encodingsGet (ToLower L "utf-16") = encodingsGet (ToLower L "utf-16le") ∧
      encodingsGet (ToLower L "utf-16")
        = some ⟨.UTF16 .LittleEndian .IgnoreBOM, "utf-16le"⟩ ∧
      encodingsGet (ToLower L "utf-16be") = some ⟨.UTF16 .BigEndian .IgnoreBOM, "utf-16be"⟩ ∧
      encodingsGet (ToLower L "utf-16be") ≠ encodingsGet (ToLower L "utf-16") := by
  rw [ToLower_ascii L "utf-16" (by decide), ToLower_ascii L "utf-16le" (by decide),
    ToLower_ascii L "utf-16be" (by decide)]
  decide

/-- C16, evaluated on the table: `iso: western` and `we8iso8859p1` resolve to the entry
`{charmap.Windows1252, "windows-1252"}`, whereas `iso-8859-1` resolves to
`{charmap.ISO8859_1, "iso-8859-1"}`. Neither the canonical name nor the decoder is the one of
`iso-8859-1`, although the comments in the table call both labels "same as iso-8859-1". -/
theorem iso_western_is_windows1252 :
    encodingsGet "iso: western" = some ⟨.Windows1252, "windows-1252"⟩ ∧
      encodingsGet "we8iso8859p1" = some ⟨.Windows1252, "windows-1252"⟩ ∧
      encodingsGet "iso-8859-1" = some ⟨.ISO8859_1, "iso-8859-1"⟩ ∧
      encodingsGet "iso: western" ≠ encodingsGet "iso-8859-1" ∧
      encodingsGet "we8iso8859p1" ≠ encodingsGet "iso-8859-1" := by
  decide



/-! ### Canonical names -/

theorem encodingsGet_replacement : encodingsGet "replacement" = none := by decide

/-- C19: canonical names are fixed points of the table. If the entry of a key has a canonical
name `n` other than `replacement`, then `n` is a key and its entry has name `n` and the same
decoder; two entries with the same canonical name have the same decoder; and a label normalised
to a name `n` other than `replacement` is normalised to `n` again when `n` is taken as the
label. -/
theorem canonical_names_fixed (L : Lib) (k₁ k₂ label : String) (e₁ e₂ : CharsetEntry)
    (h₁ : encodingsGet k₁ = some e₁) :
    (e₁.name ≠ "replacement" → encodingsGet e₁.name = some ⟨e₁.e, e₁.name⟩) ∧
      (encodingsGet k₂ = some e₂ → e₁.name = e₂.name → e₁.e = e₂.e) ∧
      (∀ n, canonicalName L label = some n → n ≠ "replacement" →
        canonicalName L n = some n) := by
  have fix : ∀ {k : String} {e : CharsetEntry}, encodingsGet k = some e →
      encodingsGet e.name = some e ∨ e = ⟨.Replacement, "replacement"⟩ :=
    fun h => encodings_fixed (_, _) (mem_of_encodingsGet h)
  refine ⟨?_, ?_, ?_⟩
  · intro hn
    rcases fix h₁ with h | h
    · exact h
    · exact absurd (by rw [h]) hn
  · intro h₂ hname
    rcases fix h₁ with f₁ | f₁ <;> rcases fix h₂ with f₂ | f₂
    · rw [hname, f₂] at f₁
      rw [Option.some.inj f₁]
    · rw [hname, f₂, encodingsGet_replacement] at f₁
      cases f₁
    · rw [← hname, f₁, encodingsGet_replacement] at f₂
      cases f₂
    · rw [f₁, f₂]
  · intro n hc hn
    unfold canonicalName at hc ⊢
    cases hl : encodingsGet (ToLower L label) with
    | none => simp [hl] at hc
    | some e =>
      simp only [hl, Option.map_some', Option.some.injEq] at hc
      subst hc
      rcases fix hl with h | h
      · rw [ToLower_key L h, h]
        rfl
      · exact absurd (by rw [h]) hn

theorem canonical_names_fixed_witness :
    encodingsGet "csiso88598i" = some ⟨.ISO8859_8, "iso-8859-8-i"⟩ ∧
      encodingsGet "iso-8859-8-i" = some ⟨.ISO8859_8, "iso-8859-8-i"⟩ ∧
      canonicalName sampleLib "Latin1" = some "windows-1252" ∧
      canonicalName sampleLib "windows-1252" = some "windows-1252" :=
  ⟨by decide,
    (canonical_names_fixed sampleLib "csiso88598i" "logical" "Latin1"
      ⟨.ISO8859_8, "iso-8859-8-i"⟩ ⟨.ISO8859_8, "iso-8859-8-i"⟩ (by decide)).1 (by decide),
    by decide,
    (canonical_names_fixed sampleLib "csiso88598i" "logical" "Latin1"
      ⟨.ISO8859_8, "iso-8859-8-i"⟩ ⟨.ISO8859_8, "iso-8859-8-i"⟩ (by decide)).2.2
      "windows-1252" (by decide) (by decide)⟩

/-- C20: every key of `encodings` is unchanged by lowercasing and has no uppercase letter, so
every entry can be reached: for a label whose lowercased form is a key, `NewCharsetReader` returns
no error and any error of `ConvertToUTF8String` is one of the decoding library, not the
unsupported-charset error. -/
theorem keys_reachable {ρ : Type} (L : Lib) (hL : L.ownErrors) (k : String)
    (csentry : CharsetEntry) (hk : encodingsGet k = some csentry) (label : String)
    (hl : ToLower L label = k) (textBytes : List UInt8) (input : Reader ρ) :
    ToLower L k = k ∧ k.data.any Char.isUpper = false ∧
      (∀ format arg, (ConvertToUTF8String L label textBytes).2 ≠ some (.errorf format arg)) ∧
      (NewCharsetReader L label input).2 = none := by
  have hlow := (encodings_keys_lower (k, csentry) (mem_of_encodingsGet hk)).2.2
  simp only at hlow
  exact ⟨ToLower_key L hk, hlow,
    supported_of_lookup L hL label csentry (by rw [hl, hk]) textBytes input⟩

theorem keys_reachable_witness :
    ToLower sampleLib "KS_C_5601-1987" = "ks_c_5601-1987" ∧
      (∀ format arg, (ConvertToUTF8String sampleLib "KS_C_5601-1987" [0x41]).2
        ≠ some (.errorf format arg)) ∧
      (NewCharsetReader sampleLib "KS_C_5601-1987" (Reader.source [0x41])).2 = none :=
  ⟨by decide,
    (keys_reachable sampleLib sampleLib_ownErrors "ks_c_5601-1987" ⟨.EUCKR, "euc-kr"⟩
      (by decide) "KS_C_5601-1987" (by decide) [0x41] (Reader.source [0x41])).2.2⟩

/-! ### Eager and streaming decoding -/

/-- C17: eager and streaming decoding agree. Over a byte slice `b`, `NewCharsetReader` fails
exactly when the lowercased label is not a key, which is when `ConvertToUTF8String` fails as
unsupported, and both then return the same error. Otherwise reading the returned reader to its end
gives the output `ConvertToUTF8String` returns, or the error it returns. For a label that is
`utf-8` after lowercasing the reader is the source itself while `ConvertToUTF8String` runs the
no-op decoder, which is taken to change nothing. -/
theorem eager_streaming_agree (L : Lib) (hNop : ∀ b, L.readAllDecoded .Nop b = (b, none))
    (label : String) (b : List UInt8) :
    ((NewCharsetReader L label (Reader.source b)).2 ≠ none ↔
        encodingsGet (ToLower L label) = none) ∧
      (encodingsGet (ToLower L label) = none →
        ConvertToUTF8String L label b = ([], some (.errorf "unsupported charset %q" label)) ∧
        NewCharsetReader L label (Reader.source b)
          = (none, some (.errorf "unsupported charset %q" label))) ∧
      (encodingsGet (ToLower L label) ≠ none →
        ∃ r output err, NewCharsetReader L label (Reader.source b) = (some r, none) ∧
          ReadAll L r = some (output, err) ∧
          ((err = none ∧ ConvertToUTF8String L label b = (output, none)) ∨
            (∃ e, err = some e ∧ ConvertToUTF8String L label b = ([], some e)))) := by
  refine ⟨(NewCharsetReader_fails_iff L label (Reader.source b)), ?_, ?_⟩
  · intro hk
    have hu : ¬ ToLower L label = utf8 := by
      intro hu
      rw [hu, encodingsGet_utf8] at hk
      cases hk
    simp [ConvertToUTF8String, NewCharsetReader, hk, hu]
  · intro hk
    cases hc : encodingsGet (ToLower L label) with
    | none => exact absurd hc hk
    | some csentry =>
      by_cases hu : ToLower L label = utf8
      · have he : csentry = ⟨.Nop, utf8⟩ := by
          rw [hu, encodingsGet_utf8] at hc
          exact (Option.some.inj hc).symm
        subst he
        exact ⟨Reader.source b, b, none, by simp [NewCharsetReader, hu], rfl,
          Or.inl ⟨rfl, by simp [ConvertToUTF8String, hc, hNop]⟩⟩
      · rcases hd : L.readAllDecoded csentry.e b with ⟨output, _ | err⟩
        · exact ⟨Reader.transform (Reader.source b) csentry.e, output, none,
            by simp [NewCharsetReader, hu, hc], by simp [ReadAll, hd],
            Or.inl ⟨rfl, by simp [ConvertToUTF8String, hc, hd]⟩⟩
        · exact ⟨Reader.transform (Reader.source b) csentry.e, output, some err,
            by simp [NewCharsetReader, hu, hc], by simp [ReadAll, hd],
            Or.inr ⟨err, rfl, by simp [ConvertToUTF8String, hc, hd]⟩⟩


theorem eager_streaming_agree_witness :
    NewCharsetReader sampleLib "UTF-8" (Reader.source [0xC3, 0xA9])
        = (some (Reader.source [0xC3, 0xA9]), none) ∧
      ReadAll sampleLib (Reader.source [0xC3, 0xA9]) = some ([0xC3, 0xA9], none) ∧
      ConvertToUTF8String sampleLib "UTF-8" [0xC3, 0xA9] = ([0xC3, 0xA9], none) ∧
      ∃ r output err, NewCharsetReader sampleLib "GBK" (Reader.source [0x41, 0xFF]) = (some r, none) ∧
        ReadAll sampleLib r = some (output, err) ∧
        ((err = none ∧ ConvertToUTF8String sampleLib "GBK" [0x41, 0xFF] = (output, none)) ∨
          (∃ e, err = some e ∧ ConvertToUTF8String sampleLib "GBK" [0x41, 0xFF] = ([], some e))) :=
  ⟨by decide, by decide, by decide,
    (eager_streaming_agree sampleLib (fun _ => rfl) "GBK" [0x41, 0xFF]).2.2 (by decide)⟩

/-! ### Two declarations on one line -/

theorem charsetRune_notNL {c : Char} (h : charsetRune c = true) : anyCharNotNL c = true := by
  cases hn : anyCharNotNL c with
  | true => rfl
  | false =>
    have hc : c = '\n' := by simpa [anyCharNotNL] using hn
    subst hc
    revert h
    decide

theorem charsetRune_not_equals {c : Char} (h : charsetRune c = true) : foldsTo '=' c = false := by
  cases hf : foldsTo '=' c with
  | false => rfl
  | true =>
    rw [foldsTo_iff, show simpleFoldOrbit '=' = ['='] from by decide, List.mem_singleton] at hf
    subst hf
    revert h
    decide

/-- C18: within one line the last `charset=` wins. For `a` and `b` made of ASCII letters,
digits, `_`, `.`, `:` and `-`, with `b` not empty, the one-line text
`<meta charset="a"><meta charset="b">` yields `b`. -/
theorem FindCharsetInHTML_last_on_line (a b : String) (hac : ∀ c ∈ a.data, charsetRune c = true)
    (hb : b ≠ "") (hbc : ∀ c ∈ b.data, charsetRune c = true) :
    FindCharsetInHTML ("<meta charset=\"" ++ a ++ "\"><meta charset=\"" ++ b ++ "\">") = b := by
  have hfold : ∀ c ∈ b.data, charsetRuneFold c = true := by
    intro c hc
    simp [charsetRuneFold, hbc c hc]
  have hm : ∀ c ∈ " charset=\"".data ++ (a.data ++ "\"><meta ".data), anyCharNotNL c = true := by
    intro c hc
    simp only [List.mem_append] at hc
    rcases hc with hc | hc | hc
    · exact (by decide : ∀ d ∈ " charset=\"".data, anyCharNotNL d = true) c hc
    · exact charsetRune_notNL (hac c hc)
    · exact (by decide : ∀ d ∈ "\"><meta ".data, anyCharNotNL d = true) c hc
  have hline : containsFold "charset=".data
      (lineRest ([doubleQuote] ++ ([] ++ (b.data ++ "\">".data)))) = false := by
    apply containsFold_of_no_equals
    intro c hc
    have hc' := (List.takeWhile_sublist _).subset hc
    simp only [List.nil_append, List.mem_append, List.mem_singleton] at hc'
    rcases hc' with rfl | hc' | hc'
    · decide
    · exact charsetRune_not_equals (hbc c hc')
    · exact (by decide : ∀ d ∈ "\">".data, foldsTo '=' d = false) c hc'
  have := FindCharsetInHTML_of_declaration [] "<meta".data
    (" charset=\"".data ++ (a.data ++ "\"><meta ".data)) "charset=".data [doubleQuote] [] b.data
    "\">".data rfl (by decide) hm (by decide) (Or.inr rfl) (by simp) (data_ne_nil hb) hfold
    (by decide) hline
  have e : "<meta charset=\"" ++ a ++ "\"><meta charset=\"" ++ b ++ "\">"
      = String.mk ([] ++ ("<meta".data ++ ((" charset=\"".data ++ (a.data ++ "\"><meta ".data)) ++
          ("charset=".data ++ ([doubleQuote] ++ ([] ++ (b.data ++ "\">".data))))))) := by
    apply String.ext
    simp only [String.data_append, List.append_assoc, List.nil_append]
    rfl
  rw [e, this]

theorem FindCharsetInHTML_last_on_line_witness :
    FindCharsetInHTML ("<meta charset=\"" ++ "utf-8" ++ "\"><meta charset=\"" ++ "Shift_JIS" ++ "\">")
      = "Shift_JIS" :=
  FindCharsetInHTML_last_on_line "utf-8" "Shift_JIS" (by decide) (by decide) (by decide)

/-! ### Decoders described by the spec -/

/-- C14, as stated, fails: `iso-2022-kr` is a key of the table, the input `A` is ASCII, and with
the replacement decoder as the spec describes it the result is the rune U+FFFD, not `A`. -/
theorem replacement_does_not_preserve_ascii :
    encodingsGet "iso-2022-kr" = some ⟨.Replacement, "replacement"⟩ ∧
      ([0x41] : List UInt8).all (fun x => x < 0x80) = true ∧
      ConvertToUTF8String specLib "iso-2022-kr" [0x41] = ([0xEF, 0xBF, 0xBD], none) ∧
      ConvertToUTF8String specLib "iso-2022-kr" [0x41] ≠ ([0x41], none) := by
  decide

set_option maxRecDepth 1000000 in
theorem encodings_ascii_exceptions :
    ∀ p ∈ encodings, (p.1 ∈ asciiExceptionKeys ↔ handsASCIIThrough p.2.e = false) := by
  decide!

set_option maxRecDepth 100000 in
theorem windows1252_ascii_fin : ∀ n : Fin 128,
    String.utf8EncodeChar (windows1252Rune (UInt8.ofNat n.val)) = [UInt8.ofNat n.val] := by
  decide!

theorem UInt8_ofNat_toNat (x : UInt8) : UInt8.ofNat x.toNat = x := by
  cases x with
  | mk v =>
    apply UInt8.eq_of_val_eq
    apply Fin.ext
    simp [UInt8.ofNat, UInt8.toNat, Fin.ofNat, Nat.mod_eq_of_lt v.isLt]

theorem windows1252_ascii (x : UInt8) (h : x < 0x80) :
    String.utf8EncodeChar (windows1252Rune x) = [x] := by
  have hlt : x.toNat < 128 := h
  have := windows1252_ascii_fin ⟨x.toNat, hlt⟩
  simpa [UInt8_ofNat_toNat] using this

theorem windows1252ReadAll_ascii (b : List UInt8) (hb : b.all (fun x => x < 0x80) = true) :
    windows1252ReadAll b = (b, none) := by
  have key : ∀ a : List UInt8, a.all (fun x => x < 0x80) = true →
      a.flatMap (fun x => String.utf8EncodeChar (windows1252Rune x)) = a := by
    intro a
    induction a with
    | nil => intro _; rfl
    | cons x a ih =>
      intro ha
      simp only [List.all_cons, Bool.and_eq_true, decide_eq_true_eq] at ha
      rw [List.flatMap_cons, windows1252_ascii x ha.1, ih ha.2]
      rfl
  rw [windows1252ReadAll, key b hb]

theorem sampleLib_ascii (e : Encoding) (b : List UInt8)
    (hb : b.all (fun x => x < 0x80) = true) : sampleLib.readAllDecoded e b = (b, none) := by
  have ht : b.takeWhile (fun x => decide (x < 128)) = b := by
    rw [List.takeWhile_eq_self_iff]
    intro x hx
    exact List.all_eq_true.mp hb x hx
  cases e
  case Nop => rfl
  all_goals
    simp only [sampleLib]
    rw [ht, if_pos hb]

theorem specLib_preservesASCII : specLib.preservesASCII := by
  intro e he b hb
  cases e
  case Nop => rfl
  case Windows1252 => exact windows1252ReadAll_ascii b hb
  case Replacement => simp [handsASCIIThrough] at he
  case UTF7 => simp [handsASCIIThrough] at he
  case HZGB2312 => simp [handsASCIIThrough] at he
  case ISO2022JP => simp [handsASCIIThrough] at he
  case UTF16 => simp [handsASCIIThrough] at he
  all_goals
    simp only [specLib]
    exact sampleLib_ascii _ b hb

/-- C14, amended: ASCII is preserved under every key of `encodings` except the twelve keys of the
UTF-7, UTF-16, HZ-GB-2312, ISO-2022-JP and replacement decoders. Such a key is routed by the table
to a decoder that hands ASCII through, and for every byte sequence below `0x80`
`ConvertToUTF8String` returns exactly those bytes and a `nil` error, given a library that reads
ASCII unchanged through those decoders. -/
theorem ascii_preserved (L : Lib) (hL : L.preservesASCII) (label : String)
    (csentry : CharsetEntry) (b : List UInt8) (hk : encodingsGet label = some csentry)
    (hx : label ∉ asciiExceptionKeys) (hb : b.all (fun x => x < 0x80) = true) :
    handsASCIIThrough csentry.e = true ∧ ConvertToUTF8String L label b = (b, none) := by
  have he : handsASCIIThrough csentry.e = true := by
    have h := encodings_ascii_exceptions (label, csentry) (mem_of_encodingsGet hk)
    simp only at h
    cases hh : handsASCIIThrough csentry.e with
    | true => rfl
    | false => exact absurd (h.mpr hh) hx
  refine ⟨he, ?_⟩
  simp [ConvertToUTF8String, ToLower_key L hk, hk, hL csentry.e he b hb]

theorem ascii_preserved_witness :
    encodingsGet "gbk" = some ⟨.GBK, "gbk"⟩ ∧
      ConvertToUTF8String specLib "gbk" [0x68, 0x65, 0x6C, 0x6C, 0x6F]
        = ([0x68, 0x65, 0x6C, 0x6C, 0x6F], none) :=
  ⟨by decide,
    (ascii_preserved specLib specLib_preservesASCII "gbk" ⟨.GBK, "gbk"⟩
      [0x68, 0x65, 0x6C, 0x6C, 0x6F] (by decide) (by decide) (by decide)).2⟩

/-- C15: with the Windows-1252 decoder of the spec,
`ConvertToUTF8String("windows-1252", [0x93, 0x41, 0x94])` returns the string U+201C, `A`, U+201D
and a `nil` error. -/
theorem windows1252_curly_quotes (L : Lib)
    (h : ∀ b, L.readAllDecoded .Windows1252 b = windows1252ReadAll b) :
    ConvertToUTF8String L "windows-1252" [0x93, 0x41, 0x94]
        = ("“A”".toUTF8.data.toList, none) ∧
      "“A”".data = [Char.ofNat 0x201C, 'A', Char.ofNat 0x201D] := by
  have hk : encodingsGet (ToLower L "windows-1252") = some ⟨.Windows1252, "windows-1252"⟩ := by
    rw [ToLower_ascii L _ (by decide)]; decide
  refine ⟨?_, by decide⟩
  simp only [ConvertToUTF8String, hk, h]
  decide

theorem windows1252_curly_quotes_witness :
    ConvertToUTF8String specLib "windows-1252" [0x93, 0x41, 0x94]
      = ("“A”".toUTF8.data.toList, none) :=
  (windows1252_curly_quotes specLib (fun _ => rfl)).1

end Coding
